import Mathlib

/-!
Shallow embedding of the match-blast puzzle core
(`assets/scripts/domain/BoardModel.ts`, `GameState` in
`assets/scripts/app/GameState.ts`, the mode controllers in
`assets/scripts/app/controllers/`, and the configuration in
`AppConfig.ts`), together with theorems checking the specification's
claims about it.

Modelling conventions:
* JS numbers holding counters, scores and coordinates are modelled as `Int`
  (lengths of concrete lists stay `Nat` and are cast where needed).
* The two parallel grids `grid` / `specialGrid` are modelled as total
  functions `Nat → Nat → _`; only the rectangle `[0, rows) × [0, cols)` is
  meaningful, matching a well-formed JS array of arrays.  Reads that the JS
  code performs without a bounds check are modelled by `readCellE`, which
  returns `Except.error ()` exactly when the JS expression `grid[row][col]`
  would throw a TypeError (row index outside the outer array) and otherwise
  yields `none` for `undefined` / `null`.
* `Math.random()`-driven choices are abstracted by an oracle function that
  supplies the chosen color for each cell.
-/

namespace MatchBlast

/-- `TileColor` from `shared/types.ts` (five regular colors plus the
logical mega-bomb marker color). -/
inductive TileColor where
  | Green
  | Blue
  | Purple
  | Red
  | Yellow
  | MegaBomb
deriving DecidableEq, Repr

/-- `TileSpecial` from `shared/types.ts`. -/
inductive TileSpecial where
  | None
  | MegaBomb
deriving DecidableEq, Repr

/-- `TilePos` from `shared/types.ts`; coordinates are JS numbers, hence `Int`. -/
structure TilePos where
  row : Int
  col : Int
deriving DecidableEq, Repr

/-- `GravityMovement` from `BoardModel.ts` (`from`/`to` are renamed since
`from` is a reserved word in Lean). -/
structure GravityMovement where
  fromPos : TilePos
  toPos : TilePos
  color : TileColor
deriving DecidableEq, Repr

/-- `RefillInfo` from `BoardModel.ts`. -/
structure RefillInfo where
  pos : TilePos
  color : TileColor
deriving DecidableEq, Repr

/-- `GameOverReason` from `GameState.ts` (`'win' | 'lose'`; `null` is
modelled by `Option`). -/
inductive GameOverReason where
  | win
  | lose
deriving DecidableEq, Repr

namespace GameConfig

/-- `GameConfig.minGroupSize` in `AppConfig.ts`. -/
def minGroupSize : Int := 2

/-- `GameConfig.baseScorePerTile` in `AppConfig.ts`. -/
def baseScorePerTile : Int := 10

/-- `GameConfig.startMoves` in `AppConfig.ts`. -/
def startMoves : Int := 20

/-- `GameConfig.targetScore` in `AppConfig.ts`. -/
def targetScore : Int := 500

/-- `GameConfig.reshuffleLimit` in `AppConfig.ts`. -/
def reshuffleLimit : Int := 3

/-- `GameConfig.startTeleports` in `AppConfig.ts`. -/
def startTeleports : Int := 5

/-- `GameConfig.bombRadius` in `AppConfig.ts`. -/
def bombRadius : Int := 1

/-- `GameConfig.startBombs` in `AppConfig.ts`. -/
def startBombs : Int := 3

/-- `GameConfig.megaBombMinGroupSize` in `AppConfig.ts`. -/
def megaBombMinGroupSize : Int := 5

end GameConfig

/-- `GameStateData` from `GameState.ts`. -/
structure GameStateData where
  score : Int
  movesLeft : Int
  targetScore : Int
  gameOver : Bool
  gameOverReason : Option GameOverReason
  reshufflesLeft : Int
  bombsLeft : Int
  teleportsLeft : Int
deriving DecidableEq, Repr

namespace GameStateData

/-- The `GameState` constructor. -/
def init : GameStateData where
  score := 0
  movesLeft := GameConfig.startMoves
  targetScore := GameConfig.targetScore
  gameOver := false
  gameOverReason := none
  reshufflesLeft := GameConfig.reshuffleLimit
  bombsLeft := GameConfig.startBombs
  teleportsLeft := GameConfig.startTeleports

/-- `GameState.canRemoveGroup`. -/
def canRemoveGroup (s : GameStateData) (size : Int) : Bool :=
  if s.gameOver then false
  else decide (size ≥ GameConfig.minGroupSize)

/-- `GameState.updateGameOver` (private helper). -/
def updateGameOver (s : GameStateData) : GameStateData :=
  if s.gameOver then s
  else if s.score ≥ s.targetScore then
    { s with gameOver := true, gameOverReason := some GameOverReason.win }
  else if s.movesLeft ≤ 0 then
    { s with gameOver := true, gameOverReason := some GameOverReason.lose }
  else s

/-- `GameState.applyGroup`; returns the gained score together with the
updated state. -/
def applyGroup (s : GameStateData) (size : Int) : Int × GameStateData :=
  if ¬ s.canRemoveGroup size then (0, s)
  else
    let gained := size * GameConfig.baseScorePerTile
    let s' := { s with score := s.score + gained, movesLeft := s.movesLeft - 1 }
    (gained, s'.updateGameOver)

/-- `GameState.canUseReshuffle`. -/
def canUseReshuffle (s : GameStateData) : Bool :=
  if s.gameOver then false else decide (s.reshufflesLeft > 0)

/-- `GameState.useReshuffle`; returns success together with the updated state. -/
def useReshuffle (s : GameStateData) : Bool × GameStateData :=
  if ¬ s.canUseReshuffle then (false, s)
  else (true, { s with reshufflesLeft := s.reshufflesLeft - 1 })

/-- `GameState.canUseBomb`. -/
def canUseBomb (s : GameStateData) : Bool :=
  if s.gameOver then false else decide (s.bombsLeft > 0)

/-- `GameState.useBomb`. -/
def useBomb (s : GameStateData) : Bool × GameStateData :=
  if ¬ s.canUseBomb then (false, s)
  else (true, { s with bombsLeft := s.bombsLeft - 1 })

/-- `GameState.applyBomb`. -/
def applyBomb (s : GameStateData) (count : Int) : Int × GameStateData :=
  if s.gameOver ∨ count ≤ 0 then (0, s)
  else
    let gained := count * GameConfig.baseScorePerTile
    let s' := { s with score := s.score + gained }
    (gained, s'.updateGameOver)

/-- `GameState.canUseTeleport`. -/
def canUseTeleport (s : GameStateData) : Bool :=
  if s.gameOver then false else decide (s.teleportsLeft > 0)

/-- `GameState.useTeleport`. -/
def useTeleport (s : GameStateData) : Bool × GameStateData :=
  if ¬ s.canUseTeleport then (false, s)
  else (true, { s with teleportsLeft := s.teleportsLeft - 1 })

/-- The counter invariant maintained by every reachable state: all four
counters are non-negative, and `movesLeft` can only be exhausted in a
game-over state. -/
def CounterInv (s : GameStateData) : Prop :=
  (0 ≤ s.movesLeft ∧ (s.gameOver = false → 1 ≤ s.movesLeft)) ∧
    0 ≤ s.reshufflesLeft ∧ 0 ≤ s.bombsLeft ∧ 0 ≤ s.teleportsLeft

end GameStateData

/-- States of `GameState` reachable from the constructor through the public
mutating operations named in the spec. -/
inductive ReachableState : GameStateData → Prop where
  | init : ReachableState GameStateData.init
  | applyGroup (s : GameStateData) (size : Int) :
      ReachableState s → ReachableState (s.applyGroup size).2
  | applyBomb (s : GameStateData) (count : Int) :
      ReachableState s → ReachableState (s.applyBomb count).2
  | useReshuffle (s : GameStateData) :
      ReachableState s → ReachableState s.useReshuffle.2
  | useBomb (s : GameStateData) :
      ReachableState s → ReachableState s.useBomb.2
  | useTeleport (s : GameStateData) :
      ReachableState s → ReachableState s.useTeleport.2

/-- Pointwise update of a function-represented grid (models the JS
assignment `g[r][c] = v`). -/
def updFn {α : Type} (g : Nat → Nat → α) (r c : Nat) (v : α) : Nat → Nat → α :=
  fun r' c' => if r' = r ∧ c' = c then v else g r' c'

/-- `BoardModel` from `BoardModel.ts`.  The two parallel 2-dimensional
arrays are modelled as total functions; see the module docstring.
`availableColors` is not carried: the random choice of colors from the
palette is abstracted by the `pick` oracle of `randomFill` and
`refillEmptyCells`. -/
structure BoardModel where
  rows : Nat
  cols : Nat
  grid : Nat → Nat → Option TileColor
  specialGrid : Nat → Nat → TileSpecial

namespace BoardModel

/-- `BoardModel.inBounds` (private helper). -/
def inBounds (b : BoardModel) (row col : Int) : Prop :=
  0 ≤ row ∧ row < (b.rows : Int) ∧ 0 ≤ col ∧ col < (b.cols : Int)

instance (b : BoardModel) (row col : Int) : Decidable (b.inBounds row col) := by
  unfold inBounds
  infer_instance

/-- `BoardModel.getSpecial`. -/
def getSpecial (b : BoardModel) (row col : Int) : TileSpecial :=
  if b.inBounds row col then b.specialGrid row.toNat col.toNat
  else TileSpecial.None

/-- `BoardModel.setSpecial` (present in the source; unused by the rest of
the code base). -/
def setSpecial (b : BoardModel) (row col : Int) (special : TileSpecial) : BoardModel :=
  if b.inBounds row col then
    { b with specialGrid := updFn b.specialGrid row.toNat col.toNat special }
  else b

/-- `BoardModel.isMegaBomb` (the special-grid based check). -/
def isMegaBomb (b : BoardModel) (row col : Int) : Bool :=
  decide (b.getSpecial row col = TileSpecial.MegaBomb)

/-- `BoardModel.randomFill`; `pick` is the randomness oracle supplying the
color drawn from `availableColors` for each cell. -/
def randomFill (b : BoardModel) (pick : Nat → Nat → TileColor) : BoardModel :=
  { b with
    grid := fun r c => if r < b.rows ∧ c < b.cols then some (pick r c) else none,
    specialGrid := fun _ _ => TileSpecial.None }

/-- One iteration of the loop body of `BoardModel.removeGroup`. -/
def removeGroupCell (b : BoardModel) (p : TilePos) : BoardModel :=
  if b.inBounds p.row p.col then
    { b with
      grid := updFn b.grid p.row.toNat p.col.toNat none,
      specialGrid := updFn b.specialGrid p.row.toNat p.col.toNat TileSpecial.None }
  else b

/-- `BoardModel.removeGroup`: sets each listed in-bounds cell to empty and
clears its special flag; out-of-bounds entries are skipped. -/
def removeGroup (b : BoardModel) (group : List TilePos) : BoardModel :=
  group.foldl removeGroupCell b

/-- `BoardModel.refillEmptyCells`; `pick` is the randomness oracle. -/
def refillEmptyCells (b : BoardModel) (pick : Nat → Nat → TileColor) :
    BoardModel × List RefillInfo :=
  ({ b with
     grid := fun r c =>
       if r < b.rows ∧ c < b.cols ∧ b.grid r c = none then some (pick r c)
       else b.grid r c,
     specialGrid := fun r c =>
       if r < b.rows ∧ c < b.cols ∧ b.grid r c = none then TileSpecial.None
       else b.specialGrid r c },
   (List.range b.rows).flatMap (fun r =>
     (List.range b.cols).filterMap (fun c =>
       if b.grid r c = none then some ⟨⟨(r : Int), (c : Int)⟩, pick r c⟩
       else none)))

/-- `BoardModel.hasAnyMoves`. -/
def hasAnyMoves (b : BoardModel) (minGroupSize : Int) : Bool :=
  if minGroupSize ≤ 1 then true
  else
    (List.range b.rows).any (fun row =>
      (List.range b.cols).any (fun col =>
        match b.grid row col with
        | none => false
        | some color =>
          (decide (row + 1 < b.rows) && decide (b.grid (row + 1) col = some color)) ||
          (decide (col + 1 < b.cols) && decide (b.grid row (col + 1) = some color))))

/-- `BoardModel.swapTiles`: unconditionally exchanges the (color, special)
payload of two in-bounds cells; a no-op if either endpoint is out of
bounds. -/
def swapTiles (b : BoardModel) (a p : TilePos) : BoardModel :=
  if b.inBounds a.row a.col ∧ b.inBounds p.row p.col then
    { b with
      grid :=
        updFn (updFn b.grid a.row.toNat a.col.toNat (b.grid p.row.toNat p.col.toNat))
          p.row.toNat p.col.toNat (b.grid a.row.toNat a.col.toNat),
      specialGrid :=
        updFn (updFn b.specialGrid a.row.toNat a.col.toNat (b.specialGrid p.row.toNat p.col.toNat))
          p.row.toNat p.col.toNat (b.specialGrid a.row.toNat a.col.toNat) }
  else b

/-- The row-major list of occupied positions (the collection loops of
`clearAllTiles` and `MegaBombController.explode`). -/
def occupiedCells (b : BoardModel) : List TilePos :=
  (List.range b.rows).flatMap (fun r =>
    (List.range b.cols).filterMap (fun c =>
      if (b.grid r c).isSome then some ⟨(r : Int), (c : Int)⟩ else none))

/-- `BoardModel.clearAllTiles`. -/
def clearAllTiles (b : BoardModel) : BoardModel × List TilePos :=
  ({ b with
     grid := fun r c => if r < b.rows ∧ c < b.cols then none else b.grid r c,
     specialGrid := fun r c =>
       if r < b.rows ∧ c < b.cols then TileSpecial.None else b.specialGrid r c },
   occupiedCells b)

/-- `BoardModel.countNonEmptyTiles`. -/
def countNonEmptyTiles (b : BoardModel) : Nat :=
  ((List.range b.rows).map (fun r =>
    (List.range b.cols).countP (fun c => (b.grid r c).isSome))).sum

end BoardModel

/-- A cell of the board: the (color, special) pair carried by the two
parallel grids at one position. -/
abbrev Cell := Option TileColor × TileSpecial

/-- The empty cell (`null` color, `TileSpecial.None`). -/
def emptyCell : Cell := (none, TileSpecial.None)

/-- Loop state of the per-column compaction loop of `applyGravity`: the
column contents (top to bottom), the current `writeRow` (a JS number that
ends at −1 on a full column, hence `Int`) and the movements recorded so
far. -/
structure ColState where
  cells : List Cell
  writeRow : Int
  moves : List GravityMovement

/-- One iteration of the bottom-up compaction loop of `applyGravity`
(`row` is the row being examined, `c` the column index, used only in the
recorded movement). -/
def gravityStep (c : Nat) (st : ColState) (row : Nat) : ColState :=
  let cell := st.cells.getD row emptyCell
  match cell.1 with
  | none => st
  | some color =>
    if (row : Int) = st.writeRow then { st with writeRow := st.writeRow - 1 }
    else
      { cells := (st.cells.set st.writeRow.toNat (some color, cell.2)).set row emptyCell,
        writeRow := st.writeRow - 1,
        moves := st.moves ++
          [⟨⟨(row : Int), (c : Int)⟩, ⟨st.writeRow, (c : Int)⟩, color⟩] }

/-- The loop `for (let row = rows − 1; row >= 0; row--)` of `applyGravity`:
`gravityLoop c n st` processes rows `n − 1` down to `0`. -/
def gravityLoop (c : Nat) : Nat → ColState → ColState
  | 0, st => st
  | r + 1, st => gravityLoop c r (gravityStep c st r)

/-- The trailing loop `for (let row = writeRow; row >= 0; row--)` of
`applyGravity`, which empties every cell at an index `≤ writeRow`. -/
def clearAbove : Int → List Cell → List Cell
  | _, [] => []
  | w, x :: xs => (if 0 ≤ w then emptyCell else x) :: clearAbove (w - 1) xs

/-- The whole per-column body of `applyGravity`. -/
def gravityColumn (c : Nat) (cells : List Cell) : ColState :=
  let st := gravityLoop c cells.length ⟨cells, (cells.length : Int) - 1, []⟩
  { st with cells := clearAbove st.writeRow st.cells }

namespace BoardModel

/-- The `c`-th column of a board, top to bottom, as (color, special) pairs. -/
def colCells (b : BoardModel) (c : Nat) : List Cell :=
  (List.range b.rows).map (fun r => (b.grid r c, b.specialGrid r c))

/-- `BoardModel.applyGravity`: per-column bottom-up compaction.  The
in-place loop touches each column independently, so it is modelled column
by column; the movement list concatenates the per-column movements in the
loop order (columns left to right, each column bottom-up). -/
def applyGravity (b : BoardModel) : BoardModel × List GravityMovement :=
  ({ b with
     grid := fun r c =>
       if r < b.rows ∧ c < b.cols then
         ((gravityColumn c (b.colCells c)).cells.getD r emptyCell).1
       else b.grid r c,
     specialGrid := fun r c =>
       if r < b.rows ∧ c < b.cols then
         ((gravityColumn c (b.colCells c)).cells.getD r emptyCell).2
       else b.specialGrid r c },
   (List.range b.cols).flatMap (fun c => (gravityColumn c (b.colCells c)).moves))

end BoardModel

/-- Specification-side definition (from the spec's words, for comparison
with the loop): the surviving (color, special) payloads of a column list,
top to bottom. -/
def survivors (cells : List Cell) : List (TileColor × TileSpecial) :=
  cells.filterMap (fun x => x.1.map (fun v => (v, x.2)))

/-- Specification-side: the number of surviving tiles at rows `≥ r`. -/
def survCountFrom (cells : List Cell) (r : Nat) : Nat :=
  (survivors (cells.drop r)).length

/-- Specification-side: the compaction destination row of the tile at row
`r` (meaningful when that cell is non-empty): the tile falls to
`length − (number of non-empty cells at rows ≥ r)`. -/
def gravityDest (cells : List Cell) (r : Nat) : Nat :=
  cells.length - survCountFrom cells r

/-- The mid-loop column shape after the compaction loop has processed all
rows `≥ r`: rows `< r` untouched, rows in `[r, length − survCountFrom r)`
have an empty color (a vacated cell is fully cleared, an originally empty
cell still carries its old special flag), and the bottom rows hold the
surviving payloads of the suffix in order. -/
def colMidFn (cells : List Cell) (r i : Nat) : Cell :=
  if i < r then cells.getD i emptyCell
  else if i < cells.length - survCountFrom cells r then
    (if (cells.getD i emptyCell).1.isSome then emptyCell else cells.getD i emptyCell)
  else
    (fun y => (some y.1, y.2))
      ((survivors (cells.drop r)).getD (i - (cells.length - survCountFrom cells r))
        (TileColor.Green, TileSpecial.None))

/-- The mid-loop column itself. -/
def colMid (cells : List Cell) (r : Nat) : List Cell :=
  (List.range cells.length).map (colMidFn cells r)

/-- Specification-side: the final compacted column — empties on top,
survivors at the bottom in original order. -/
def colFinal (cells : List Cell) : List Cell :=
  List.replicate (cells.length - (survivors cells).length) emptyCell ++
    (survivors cells).map (fun y => (some y.1, y.2))

/-- Specification-side: the movement recorded for row `r` (none when the
cell is empty or stationary). -/
def moveAt (cells : List Cell) (c r : Nat) : List GravityMovement :=
  match (cells.getD r emptyCell).1 with
  | none => []
  | some v =>
    if (gravityDest cells r : Int) = (r : Int) then []
    else [⟨⟨(r : Int), (c : Int)⟩, ⟨(gravityDest cells r : Int), (c : Int)⟩, v⟩]

/-- Specification-side: the movements recorded while the loop processes
rows `r − 1` down to `0` (bottom-most first, matching the push order). -/
def movesBelow (cells : List Cell) (c : Nat) : Nat → List GravityMovement
  | 0 => []
  | r + 1 => moveAt cells c r ++ movesBelow cells c r

/-- Specification-side: the top-to-bottom sequence of colors of the
occupied cells of column `c`. -/
def colColors (b : BoardModel) (c : Nat) : List TileColor :=
  ((List.range b.rows).map (fun r => b.grid r c)).filterMap id

/-- 4-adjacency of two positions (Manhattan distance exactly 1). -/
def adjacent (p q : TilePos) : Prop :=
  (p.row - q.row).natAbs + (p.col - q.col).natAbs = 1

/-- An in-bounds cell holding the given color. -/
def goodCell (b : BoardModel) (color : TileColor) (p : TilePos) : Prop :=
  b.inBounds p.row p.col ∧ b.grid p.row.toNat p.col.toNat = some color

/-- One step of same-color 4-connectivity. -/
def SameColorStep (b : BoardModel) (color : TileColor) (p q : TilePos) : Prop :=
  goodCell b color p ∧ goodCell b color q ∧ adjacent p q

/-- Specification-side: same-color 4-connectivity reachability, the
reflexive-transitive closure of `SameColorStep`. -/
def SameColorReach (b : BoardModel) (color : TileColor) (p q : TilePos) : Prop :=
  Relation.ReflTransGen (SameColorStep b color) p q

/-- The `visited[row][col]` marker of an in-bounds position, as a pair of
`Fin`s so that the visited set lives in a finite type. -/
def toFinPos (b : BoardModel) (p : TilePos) (h : b.inBounds p.row p.col) :
    Fin b.rows × Fin b.cols :=
  (⟨p.row.toNat, by unfold BoardModel.inBounds at h; omega⟩,
   ⟨p.col.toNat, by unfold BoardModel.inBounds at h; omega⟩)

namespace BoardModel

/-- The explicit-stack flood-fill loop of `BoardModel.findGroup`.  The
source pushes to / pops from the array end; the model pushes to / pops from
the list head, which visits the four neighbors in the mirrored order and
produces the same set of cells. -/
def findGroupAux (b : BoardModel) (startColor : TileColor) :
    List TilePos → Finset (Fin b.rows × Fin b.cols) → List TilePos → List TilePos
  | [], _, group => group
  | p :: rest, visited, group =>
    if h : b.inBounds p.row p.col then
      if hmem : toFinPos b p h ∈ visited then findGroupAux b startColor rest visited group
      else
        if b.grid p.row.toNat p.col.toNat = some startColor then
          findGroupAux b startColor
            (⟨p.row - 1, p.col⟩ :: ⟨p.row + 1, p.col⟩ ::
              ⟨p.row, p.col - 1⟩ :: ⟨p.row, p.col + 1⟩ :: rest)
            (insert (toFinPos b p h) visited) (group ++ [p])
        else findGroupAux b startColor rest (insert (toFinPos b p h) visited) group
    else findGroupAux b startColor rest visited group
termination_by stack visited _ => 4 * (b.rows * b.cols - visited.card) + stack.length
decreasing_by
  · simp only [List.length_cons]
    omega
  · have hcard : (insert (toFinPos b p h) visited).card = visited.card + 1 :=
      Finset.card_insert_of_not_mem hmem
    have hle : (insert (toFinPos b p h) visited).card ≤ b.rows * b.cols := by
      have h2 := Finset.card_le_univ (insert (toFinPos b p h) visited)
      simpa [Fintype.card_prod] using h2
    simp only [List.length_cons, hcard]
    omega
  · have hcard : (insert (toFinPos b p h) visited).card = visited.card + 1 :=
      Finset.card_insert_of_not_mem hmem
    have hle : (insert (toFinPos b p h) visited).card ≤ b.rows * b.cols := by
      have h2 := Finset.card_le_univ (insert (toFinPos b p h) visited)
      simpa [Fintype.card_prod] using h2
    simp only [List.length_cons, hcard]
    omega
  · simp only [List.length_cons]
    omega

/-- `BoardModel.findGroup`: iterative flood fill over 4-neighbors sharing
the start cell's color; empty for an out-of-bounds or empty start. -/
def findGroup (b : BoardModel) (startRow startCol : Int) : List TilePos :=
  if ¬ b.inBounds startRow startCol then []
  else
    match b.grid startRow.toNat startCol.toNat with
    | none => []
    | some startColor => b.findGroupAux startColor [⟨startRow, startCol⟩] ∅ []

end BoardModel

/-- Evaluation of the unchecked JS expression `grid[row][col]`: a row index
outside the outer array makes the inner access throw (`Except.error ()`);
an in-range row with an out-of-range column yields `undefined`, which the
callers treat exactly like an empty cell (`none`). -/
def readCellE (b : BoardModel) (row col : Int) : Except Unit (Option TileColor) :=
  if 0 ≤ row ∧ row < (b.rows : Int) then
    Except.ok (if 0 ≤ col ∧ col < (b.cols : Int) then b.grid row.toNat col.toNat else none)
  else Except.error ()

/-- `MegaBombCreationResult` from `MegaBombController.ts`. -/
structure MegaBombCreationResult where
  created : Bool
  center : Option TilePos
  removedCells : List TilePos
deriving DecidableEq, Repr

/-- `MegaBombExplosionResult` from `MegaBombController.ts`. -/
structure MegaBombExplosionResult where
  removedCells : List TilePos
  totalTiles : Nat
deriving DecidableEq, Repr

namespace MegaBombController

/-- `MegaBombController.canCreateFromSize` (the controller's configured
`minGroupSize` is passed explicitly). -/
def canCreateFromSize (minGroupSize : Int) (size : Int) : Bool :=
  decide (size ≥ minGroupSize)

/-- `MegaBombController.isMegaBomb`: the color-grid based check, via an
unchecked read (hence `Except`). -/
def isMegaBomb (b : BoardModel) (row col : Int) : Except Unit Bool :=
  (readCellE b row col).map (fun v => decide (v = some TileColor.MegaBomb))

/-- `MegaBombController.createFromGroup`.  The final JS statement
`grid[center.row][center.col] = TileColor.MegaBomb` throws when
`center.row` is outside the outer array (modelled by `Except.error ()`);
a negative `center.col` would write a non-index property invisible to all
grid reads, modelled as leaving the grid unchanged. -/
def createFromGroup (minGroupSize : Int) (b : BoardModel) (group : List TilePos)
    (center : TilePos) : Except Unit (MegaBombCreationResult × BoardModel) :=
  if (group.length : Int) < minGroupSize then Except.ok (⟨false, none, []⟩, b)
  else
    let withoutCenter :=
      group.filter (fun p => decide (¬ (p.row = center.row ∧ p.col = center.col)))
    let b1 := BoardModel.removeGroup b withoutCenter
    if 0 ≤ center.row ∧ center.row < (b.rows : Int) then
      Except.ok (⟨true, some center, withoutCenter⟩,
        { b1 with
          grid :=
            if 0 ≤ center.col then
              updFn b1.grid center.row.toNat center.col.toNat (some TileColor.MegaBomb)
            else b1.grid })
    else Except.error ()

/-- `MegaBombController.explode`.  The initial unchecked read throws for a
row index outside the outer array; `Except.ok none` models the JS `null`
returns (cell not a mega bomb, or empty board). -/
def explode (b : BoardModel) (row col : Int) :
    Except Unit (Option MegaBombExplosionResult × BoardModel) :=
  match readCellE b row col with
  | Except.error e => Except.error e
  | Except.ok v =>
    if v ≠ some TileColor.MegaBomb then Except.ok (none, b)
    else
      let removed := b.occupiedCells
      if removed.length = 0 then Except.ok (none, b)
      else Except.ok (some ⟨removed, removed.length⟩, BoardModel.removeGroup b removed)

end MegaBombController

/-- The JS loop `for (let x = lo; x <= hi; x++)`. -/
def intRange (lo hi : Int) : List Int :=
  (List.range (hi + 1 - lo).toNat).map (fun (i : Nat) => lo + (i : Int))

/-- `BombController` state from `BombController.ts` (the board is passed to
`handleClick` explicitly; the controller never mutates it). -/
structure BombController where
  active : Bool
  radius : Int
deriving DecidableEq, Repr

namespace BombController

/-- `BombController.handleClick`: while active, deactivates and collects
every occupied in-bounds cell in the square of radius `radius` around the
click; otherwise returns nothing. -/
def handleClick (bc : BombController) (b : BoardModel) (row col : Int) :
    BombController × List TilePos :=
  if bc.active = false then (bc, [])
  else
    ({ bc with active := false },
     (intRange (row - bc.radius) (row + bc.radius)).flatMap (fun r =>
       (intRange (col - bc.radius) (col + bc.radius)).filterMap (fun c =>
         if b.inBounds r c then
           if (b.grid r.toNat c.toNat).isSome then some ⟨r, c⟩ else none
         else none)))

end BombController

/-- `TeleportClickResult` from `TeleportController.ts`. -/
inductive TeleportClickResult where
  | select (pos : TilePos)
  | deselect (pos : TilePos)
  | reselect (fromPos toPos : TilePos)
  | swap (fromPos toPos : TilePos)
deriving DecidableEq, Repr

/-- `TeleportController` state from `TeleportController.ts`. -/
structure TeleportController where
  active : Bool
  first : Option TilePos
deriving DecidableEq, Repr

namespace TeleportController

/-- `TeleportController.toggle`. -/
def toggle (t : TeleportController) : TeleportController :=
  ⟨!t.active, none⟩

/-- `TeleportController.reset`. -/
def reset (_t : TeleportController) : TeleportController :=
  ⟨false, none⟩

/-- `TeleportController.handleClick`; returns the updated controller, the
(possibly swapped) board and the click result. -/
def handleClick (t : TeleportController) (b : BoardModel) (pos : TilePos) :
    TeleportController × BoardModel × Option TeleportClickResult :=
  if t.active = false then (t, b, none)
  else
    match t.first with
    | none => ({ t with first := some pos }, b, some (TeleportClickResult.select pos))
    | some first =>
      if first.row = pos.row ∧ first.col = pos.col then
        ({ t with first := none }, b, some (TeleportClickResult.deselect first))
      else
        let dr := (first.row - pos.row).natAbs
        let dc := (first.col - pos.col).natAbs
        if ¬ (dr + dc = 1) then
          ({ t with first := some pos }, b, some (TeleportClickResult.reselect first pos))
        else
          (⟨false, none⟩, b.swapTiles first pos, some (TeleportClickResult.swap first pos))

end TeleportController

/-- A concrete 2×2 board used by the witness theorems. -/
def sampleBoard : BoardModel where
  rows := 2
  cols := 2
  grid := fun r c =>
    if r = 0 ∧ c = 0 then some TileColor.Red
    else if r = 0 ∧ c = 1 then some TileColor.Red
    else if r = 1 ∧ c = 0 then some TileColor.Blue
    else if r = 1 ∧ c = 1 then some TileColor.Green
    else none
  specialGrid := fun _ _ => TileSpecial.None

/-- A concrete 3×1 board with a hole in the middle, used by the C1 witness. -/
def gravityDemoBoard : BoardModel where
  rows := 3
  cols := 1
  grid := fun r c =>
    if r = 0 ∧ c = 0 then some TileColor.Red
    else if r = 2 ∧ c = 0 then some TileColor.Blue
    else none
  specialGrid := fun _ _ => TileSpecial.None

/-- A concrete five-cell group used by the C9 theorems. -/
def fiveCellGroup : List TilePos :=
  [⟨0, 0⟩, ⟨0, 1⟩, ⟨1, 0⟩, ⟨1, 1⟩, ⟨0, 2⟩]

/-- A concrete game state with an exhausted bomb charge, used by a witness. -/
def exhaustedBombState : GameStateData where
  score := 120
  movesLeft := 7
  targetScore := GameConfig.targetScore
  gameOver := false
  gameOverReason := none
  reshufflesLeft := 1
  bombsLeft := 0
  teleportsLeft := 2


/-- All entries of the parallel `specialGrid` are `TileSpecial.None`. -/
def AllSpecialsNone (b : BoardModel) : Prop :=
  ∀ r c, b.specialGrid r c = TileSpecial.None

/-- Board states reachable from `randomFill()` through the public board
operations (the game never calls `setSpecial`). -/
inductive ReachableBoard : BoardModel → Prop where
  | start (b : BoardModel) (pick : Nat → Nat → TileColor) :
      ReachableBoard (b.randomFill pick)
  | remove (b : BoardModel) (group : List TilePos) :
      ReachableBoard b → ReachableBoard (b.removeGroup group)
  | gravity (b : BoardModel) :
      ReachableBoard b → ReachableBoard b.applyGravity.1
  | refill (b : BoardModel) (pick : Nat → Nat → TileColor) :
      ReachableBoard b → ReachableBoard (b.refillEmptyCells pick).1
  | swap (b : BoardModel) (a p : TilePos) :
      ReachableBoard b → ReachableBoard (b.swapTiles a p)
  | clearAll (b : BoardModel) :
      ReachableBoard b → ReachableBoard b.clearAllTiles.1
  | megaCreate (minGroupSize : Int) (b : BoardModel) (group : List TilePos)
      (center : TilePos) (res : MegaBombCreationResult) (b2 : BoardModel) :
      ReachableBoard b →
      MegaBombController.createFromGroup minGroupSize b group center =
        Except.ok (res, b2) →
      ReachableBoard b2
  | megaExplode (b : BoardModel) (row col : Int)
      (res : Option MegaBombExplosionResult) (b2 : BoardModel) :
      ReachableBoard b →
      MegaBombController.explode b row col = Except.ok (res, b2) →
      ReachableBoard b2

/- ===================== THEOREMS ===================== -/

namespace GameStateData

theorem counterInv_init : CounterInv GameStateData.init := by
  constructor
  · exact ⟨by decide, fun _ => by decide⟩
  · exact ⟨by decide, by decide, by decide⟩

theorem updateGameOver_score (s : GameStateData) :
    s.updateGameOver.score = s.score := by
  unfold updateGameOver
  split <;> [rfl; split <;> [rfl; split <;> rfl]]

theorem updateGameOver_movesLeft (s : GameStateData) :
    s.updateGameOver.movesLeft = s.movesLeft := by
  unfold updateGameOver
  split <;> [rfl; split <;> [rfl; split <;> rfl]]

theorem updateGameOver_reshufflesLeft (s : GameStateData) :
    s.updateGameOver.reshufflesLeft = s.reshufflesLeft := by
  unfold updateGameOver
  split <;> [rfl; split <;> [rfl; split <;> rfl]]

theorem updateGameOver_bombsLeft (s : GameStateData) :
    s.updateGameOver.bombsLeft = s.bombsLeft := by
  unfold updateGameOver
  split <;> [rfl; split <;> [rfl; split <;> rfl]]

theorem updateGameOver_teleportsLeft (s : GameStateData) :
    s.updateGameOver.teleportsLeft = s.teleportsLeft := by
  unfold updateGameOver
  split <;> [rfl; split <;> [rfl; split <;> rfl]]

theorem updateGameOver_targetScore (s : GameStateData) :
    s.updateGameOver.targetScore = s.targetScore := by
  unfold updateGameOver
  split <;> [rfl; split <;> [rfl; split <;> rfl]]

theorem updateGameOver_gameOver_eq (s : GameStateData) :
    s.updateGameOver.gameOver = s.gameOver ∨ s.updateGameOver.gameOver = true := by
  unfold updateGameOver
  split
  · exact Or.inl rfl
  · split
    · exact Or.inr rfl
    · split
      · exact Or.inr rfl
      · exact Or.inl rfl

theorem counterInv_applyGroup (s : GameStateData) (size : Int)
    (h : CounterInv s) : CounterInv (s.applyGroup size).2 := by
  unfold applyGroup
  by_cases hc : s.canRemoveGroup size
  · simp only [hc, not_true_eq_false, if_false]
    have hgo : s.gameOver = false := by
      by_contra hx
      have : s.gameOver = true := eq_true_of_ne_false (by simpa using hx)
      simp [canRemoveGroup, this] at hc
    have hm1 : 1 ≤ s.movesLeft := h.1.2 hgo
    set s' : GameStateData :=
      { s with score := s.score + size * GameConfig.baseScorePerTile,
               movesLeft := s.movesLeft - 1 } with hs'
    refine ⟨⟨?_, ?_⟩, ?_, ?_, ?_⟩
    · rw [updateGameOver_movesLeft]
      simp only [hs']
      omega
    · intro hno
      rw [updateGameOver_movesLeft]
      unfold updateGameOver at hno
      by_cases hw : s'.score ≥ s'.targetScore
      · simp [hs', hgo, hw] at hno
      · by_cases hl : s'.movesLeft ≤ 0
        · simp [hs', hgo, hw, hl] at hno
        · simp only [hs'] at hl ⊢
          omega
    · rw [updateGameOver_reshufflesLeft]; exact h.2.1
    · rw [updateGameOver_bombsLeft]; exact h.2.2.1
    · rw [updateGameOver_teleportsLeft]; exact h.2.2.2
  · simp only [hc, not_false_eq_true, if_true]
    exact h

theorem counterInv_applyBomb (s : GameStateData) (count : Int)
    (h : CounterInv s) : CounterInv (s.applyBomb count).2 := by
  unfold applyBomb
  split
  · exact h
  · rename_i hcond
    push_neg at hcond
    refine ⟨⟨?_, ?_⟩, ?_, ?_, ?_⟩
    · rw [updateGameOver_movesLeft]; exact h.1.1
    · intro hno
      rw [updateGameOver_movesLeft]
      apply h.1.2
      rcases updateGameOver_gameOver_eq
          { s with score := s.score + count * GameConfig.baseScorePerTile } with
        hg | hg
      · rw [hno] at hg; exact hg.symm
      · rw [hno] at hg; cases hg
    · rw [updateGameOver_reshufflesLeft]; exact h.2.1
    · rw [updateGameOver_bombsLeft]; exact h.2.2.1
    · rw [updateGameOver_teleportsLeft]; exact h.2.2.2

theorem counterInv_useReshuffle (s : GameStateData)
    (h : CounterInv s) : CounterInv s.useReshuffle.2 := by
  unfold useReshuffle
  by_cases hcan : s.canUseReshuffle = true
  · have hpos : 0 < s.reshufflesLeft := by
      unfold canUseReshuffle at hcan
      by_cases hg : s.gameOver = true
      · rw [if_pos hg] at hcan; cases hcan
      · rw [if_neg hg] at hcan; exact of_decide_eq_true hcan
    simp only [hcan, not_true_eq_false, if_false]
    show CounterInv { s with reshufflesLeft := s.reshufflesLeft - 1 }
    exact ⟨h.1, by simp only; omega, h.2.2.1, h.2.2.2⟩
  · simp only [hcan, not_false_eq_true, if_true]
    exact h

theorem counterInv_useBomb (s : GameStateData)
    (h : CounterInv s) : CounterInv s.useBomb.2 := by
  unfold useBomb
  by_cases hcan : s.canUseBomb = true
  · have hpos : 0 < s.bombsLeft := by
      unfold canUseBomb at hcan
      by_cases hg : s.gameOver = true
      · rw [if_pos hg] at hcan; cases hcan
      · rw [if_neg hg] at hcan; exact of_decide_eq_true hcan
    simp only [hcan, not_true_eq_false, if_false]
    show CounterInv { s with bombsLeft := s.bombsLeft - 1 }
    exact ⟨h.1, h.2.1, by simp only; omega, h.2.2.2⟩
  · simp only [hcan, not_false_eq_true, if_true]
    exact h

theorem counterInv_useTeleport (s : GameStateData)
    (h : CounterInv s) : CounterInv s.useTeleport.2 := by
  unfold useTeleport
  by_cases hcan : s.canUseTeleport = true
  · have hpos : 0 < s.teleportsLeft := by
      unfold canUseTeleport at hcan
      by_cases hg : s.gameOver = true
      · rw [if_pos hg] at hcan; cases hcan
      · rw [if_neg hg] at hcan; exact of_decide_eq_true hcan
    simp only [hcan, not_true_eq_false, if_false]
    show CounterInv { s with teleportsLeft := s.teleportsLeft - 1 }
    exact ⟨h.1, h.2.1, h.2.2.1, by simp only; omega⟩
  · simp only [hcan, not_false_eq_true, if_true]
    exact h

theorem counterInv_of_reachable (s : GameStateData)
    (h : ReachableState s) : CounterInv s := by
  induction h with
  | init => exact counterInv_init
  | applyGroup s size _ ih => exact counterInv_applyGroup s size ih
  | applyBomb s count _ ih => exact counterInv_applyBomb s count ih
  | useReshuffle s _ ih => exact counterInv_useReshuffle s ih
  | useBomb s _ ih => exact counterInv_useBomb s ih
  | useTeleport s _ ih => exact counterInv_useTeleport s ih

theorem applyGroup_score_mono (s : GameStateData) (size : Int) :
    s.score ≤ (s.applyGroup size).2.score := by
  unfold applyGroup
  split
  · exact le_refl _
  · rename_i hcan
    rw [not_not] at hcan
    have hsize : size ≥ GameConfig.minGroupSize := by
      by_contra hx
      simp [canRemoveGroup, hx] at hcan
    rw [updateGameOver_score]
    have : (0:Int) ≤ size * GameConfig.baseScorePerTile := by
      have h1 : (0:Int) ≤ size := by
        have : (2:Int) ≤ size := hsize
        omega
      have h2 : (0:Int) ≤ GameConfig.baseScorePerTile := by decide
      exact mul_nonneg h1 h2
    simp only
    omega

theorem applyBomb_score_mono (s : GameStateData) (count : Int) :
    s.score ≤ (s.applyBomb count).2.score := by
  unfold applyBomb
  split
  · exact le_refl _
  · rename_i hcond
    push_neg at hcond
    rw [updateGameOver_score]
    have : (0:Int) ≤ count * GameConfig.baseScorePerTile := by
      have h1 : (0:Int) ≤ count := le_of_lt hcond.2
      exact mul_nonneg h1 (by decide)
    simp only
    omega

theorem useReshuffle_zero (s : GameStateData)
    (h : s.reshufflesLeft = 0 ∨ s.gameOver = true) :
    s.useReshuffle = (false, s) := by
  unfold useReshuffle
  have : s.canUseReshuffle = false := by
    unfold canUseReshuffle
    rcases h with h | h
    · split
      · rfl
      · simp [h]
    · simp [h]
  rw [this]
  simp

theorem useBomb_zero (s : GameStateData)
    (h : s.bombsLeft = 0 ∨ s.gameOver = true) :
    s.useBomb = (false, s) := by
  unfold useBomb
  have : s.canUseBomb = false := by
    unfold canUseBomb
    rcases h with h | h
    · split
      · rfl
      · simp [h]
    · simp [h]
  rw [this]
  simp

theorem useTeleport_zero (s : GameStateData)
    (h : s.teleportsLeft = 0 ∨ s.gameOver = true) :
    s.useTeleport = (false, s) := by
  unfold useTeleport
  have : s.canUseTeleport = false := by
    unfold canUseTeleport
    rcases h with h | h
    · split
      · rfl
      · simp [h]
    · simp [h]
  rw [this]
  simp

theorem useReshuffle_score (s : GameStateData) : s.useReshuffle.2.score = s.score := by
  unfold useReshuffle
  split <;> rfl

theorem useBomb_score (s : GameStateData) : s.useBomb.2.score = s.score := by
  unfold useBomb
  split <;> rfl

theorem useTeleport_score (s : GameStateData) : s.useTeleport.2.score = s.score := by
  unfold useTeleport
  split <;> rfl

end GameStateData

/-- C3: for every state and size, `applyGroup(size)` is a no-op returning 0
when `canRemoveGroup(size)` is false (and `canRemoveGroup` is false whenever
the game is over or `size < minGroupSize`); otherwise it adds
`size * baseScorePerTile` to the score, decrements `movesLeft` by exactly 1,
returns the gained score, and evaluates the end condition with win taking
priority over lose: if the new score is ≥ `targetScore` it sets
gameOver/win, else if the new `movesLeft` is ≤ 0 it sets gameOver/lose,
else the game-over fields are untouched. -/
theorem claim_C3 (s : GameStateData) (size : Int) :
    (s.canRemoveGroup size = false → s.applyGroup size = (0, s)) ∧
    ((s.gameOver = true ∨ size < GameConfig.minGroupSize) →
      s.canRemoveGroup size = false) ∧
    (s.canRemoveGroup size = true →
      (s.applyGroup size).1 = size * GameConfig.baseScorePerTile ∧
      (s.applyGroup size).2.score = s.score + size * GameConfig.baseScorePerTile ∧
      (s.applyGroup size).2.movesLeft = s.movesLeft - 1 ∧
      (s.applyGroup size).2.targetScore = s.targetScore ∧
      (s.applyGroup size).2.reshufflesLeft = s.reshufflesLeft ∧
      (s.applyGroup size).2.bombsLeft = s.bombsLeft ∧
      (s.applyGroup size).2.teleportsLeft = s.teleportsLeft ∧
      (if s.score + size * GameConfig.baseScorePerTile ≥ s.targetScore then
        (s.applyGroup size).2.gameOver = true ∧
          (s.applyGroup size).2.gameOverReason = some GameOverReason.win
      else if s.movesLeft - 1 ≤ 0 then
        (s.applyGroup size).2.gameOver = true ∧
          (s.applyGroup size).2.gameOverReason = some GameOverReason.lose
      else
        (s.applyGroup size).2.gameOver = false ∧
          (s.applyGroup size).2.gameOverReason = s.gameOverReason)) := by
  refine ⟨?_, ?_, ?_⟩
  · intro h
    unfold GameStateData.applyGroup
    rw [h]
    simp
  · intro h
    unfold GameStateData.canRemoveGroup
    rcases h with h | h
    · rw [h]
      simp
    · split
      · rfl
      · simp only [decide_eq_false_iff_not]
        omega
  · intro hcan
    have hgo : s.gameOver = false := by
      unfold GameStateData.canRemoveGroup at hcan
      by_cases hg : s.gameOver = true
      · rw [if_pos hg] at hcan; cases hcan
      · exact Bool.eq_false_iff.mpr hg
    have happ : s.applyGroup size =
        (size * GameConfig.baseScorePerTile,
          GameStateData.updateGameOver
            { s with score := s.score + size * GameConfig.baseScorePerTile,
                     movesLeft := s.movesLeft - 1 }) := by
      unfold GameStateData.applyGroup
      rw [hcan]
      simp
    set s' : GameStateData :=
      { s with score := s.score + size * GameConfig.baseScorePerTile,
               movesLeft := s.movesLeft - 1 } with hs'
    rw [happ]
    refine ⟨rfl, ?_, ?_, ?_, ?_, ?_, ?_, ?_⟩
    · rw [GameStateData.updateGameOver_score]
    · rw [GameStateData.updateGameOver_movesLeft]
    · rw [GameStateData.updateGameOver_targetScore]
    · rw [GameStateData.updateGameOver_reshufflesLeft]
    · rw [GameStateData.updateGameOver_bombsLeft]
    · rw [GameStateData.updateGameOver_teleportsLeft]
    · have hgo' : s'.gameOver = false := hgo
      by_cases hw : s.score + size * GameConfig.baseScorePerTile ≥ s.targetScore
      · rw [if_pos hw]
        have : s'.score ≥ s'.targetScore := hw
        unfold GameStateData.updateGameOver
        rw [hgo']
        simp only [Bool.false_eq_true, if_false, if_pos this]
        exact ⟨trivial, trivial⟩
      · rw [if_neg hw]
        have hw' : ¬ s'.score ≥ s'.targetScore := hw
        by_cases hl : s.movesLeft - 1 ≤ 0
        · rw [if_pos hl]
          have hl' : s'.movesLeft ≤ 0 := hl
          unfold GameStateData.updateGameOver
          rw [hgo']
          simp only [Bool.false_eq_true, if_false, if_neg hw', if_pos hl']
          exact ⟨trivial, trivial⟩
        · rw [if_neg hl]
          have hl' : ¬ s'.movesLeft ≤ 0 := hl
          unfold GameStateData.updateGameOver
          rw [hgo']
          simp only [Bool.false_eq_true, if_false, if_neg hw', if_neg hl']
          exact ⟨hgo, trivial⟩

/-- Witness for C3 at the initial state with a group of size 3. -/
theorem claim_C3_witness :
    GameStateData.init.canRemoveGroup 3 = true ∧
    (GameStateData.init.applyGroup 3).1 = 3 * GameConfig.baseScorePerTile ∧
    (GameStateData.init.applyGroup 3).2.movesLeft = GameStateData.init.movesLeft - 1 :=
  ⟨by decide, ((claim_C3 GameStateData.init 3).2.2 (by decide)).1,
    ((claim_C3 GameStateData.init 3).2.2 (by decide)).2.2.1⟩

/-- C6: on every reachable state no sequence of
`applyGroup`/`applyBomb`/`useReshuffle`/`useBomb`/`useTeleport` calls drives
`movesLeft`, `reshufflesLeft`, `bombsLeft` or `teleportsLeft` negative; the
score is non-decreasing under every operation; and each `use*` operation
returns false and leaves the state untouched when its charge is 0 or the
game is over. -/
theorem claim_C6 :
    (∀ s : GameStateData, ReachableState s →
      0 ≤ s.movesLeft ∧ 0 ≤ s.reshufflesLeft ∧ 0 ≤ s.bombsLeft ∧ 0 ≤ s.teleportsLeft) ∧
    (∀ (s : GameStateData) (size : Int), s.score ≤ (s.applyGroup size).2.score) ∧
    (∀ (s : GameStateData) (count : Int), s.score ≤ (s.applyBomb count).2.score) ∧
    (∀ s : GameStateData,
      s.useReshuffle.2.score = s.score ∧ s.useBomb.2.score = s.score ∧
        s.useTeleport.2.score = s.score) ∧
    (∀ s : GameStateData, s.reshufflesLeft = 0 ∨ s.gameOver = true →
      s.useReshuffle = (false, s)) ∧
    (∀ s : GameStateData, s.bombsLeft = 0 ∨ s.gameOver = true →
      s.useBomb = (false, s)) ∧
    (∀ s : GameStateData, s.teleportsLeft = 0 ∨ s.gameOver = true →
      s.useTeleport = (false, s)) := by
  refine ⟨?_, ?_, ?_, ?_, ?_, ?_, ?_⟩
  · intro s hs
    have h := GameStateData.counterInv_of_reachable s hs
    exact ⟨h.1.1, h.2.1, h.2.2.1, h.2.2.2⟩
  · exact GameStateData.applyGroup_score_mono
  · exact GameStateData.applyBomb_score_mono
  · intro s
    exact ⟨GameStateData.useReshuffle_score s, GameStateData.useBomb_score s,
      GameStateData.useTeleport_score s⟩
  · exact GameStateData.useReshuffle_zero
  · exact GameStateData.useBomb_zero
  · exact GameStateData.useTeleport_zero

/-- Witness for C6: the initial state is reachable and satisfies the
counter bounds, and a state with zero bombs refuses `useBomb` unchanged. -/
theorem claim_C6_witness :
    (0 ≤ GameStateData.init.movesLeft ∧ 0 ≤ GameStateData.init.reshufflesLeft ∧
      0 ≤ GameStateData.init.bombsLeft ∧ 0 ≤ GameStateData.init.teleportsLeft) ∧
    exhaustedBombState.useBomb = (false, exhaustedBombState) :=
  ⟨claim_C6.1 GameStateData.init ReachableState.init,
   claim_C6.2.2.2.2.2.1 exhaustedBombState (Or.inl rfl)⟩

/-- C5: `hasAnyMoves(minGroupSize)` returns true unconditionally when
`minGroupSize ≤ 1`, and otherwise returns true iff some cell holds a color
equal to that of its right or down neighbor (a size-≥2 witness, regardless
of the configured threshold). -/
theorem claim_C5 (b : BoardModel) (minGroupSize : Int) :
    b.hasAnyMoves minGroupSize = true ↔
      (minGroupSize ≤ 1 ∨
        ∃ r c : Nat, r < b.rows ∧ c < b.cols ∧ ∃ color,
          b.grid r c = some color ∧
          ((r + 1 < b.rows ∧ b.grid (r + 1) c = some color) ∨
           (c + 1 < b.cols ∧ b.grid r (c + 1) = some color))) := by
  unfold BoardModel.hasAnyMoves
  by_cases hm : minGroupSize ≤ 1
  · simp [hm]
  · rw [if_neg hm]
    constructor
    · intro h
      refine Or.inr ?_
      rcases List.any_eq_true.mp h with ⟨row, hrowmem, h2⟩
      rcases List.any_eq_true.mp h2 with ⟨col, hcolmem, h3⟩
      rw [List.mem_range] at hrowmem hcolmem
      refine ⟨row, col, hrowmem, hcolmem, ?_⟩
      cases hg : b.grid row col with
      | none => rw [hg] at h3; cases h3
      | some color =>
        rw [hg] at h3
        dsimp only at h3
        rw [Bool.or_eq_true, Bool.and_eq_true, Bool.and_eq_true] at h3
        refine ⟨color, rfl, ?_⟩
        rcases h3 with ⟨h4, h5⟩ | ⟨h4, h5⟩
        · exact Or.inl ⟨of_decide_eq_true h4, of_decide_eq_true h5⟩
        · exact Or.inr ⟨of_decide_eq_true h4, of_decide_eq_true h5⟩
    · intro h
      rcases h with h | ⟨r, c, hr, hc, color, hg, hnb⟩
      · exact absurd h hm
      · apply List.any_eq_true.mpr
        refine ⟨r, List.mem_range.mpr hr, ?_⟩
        apply List.any_eq_true.mpr
        refine ⟨c, List.mem_range.mpr hc, ?_⟩
        rw [hg]
        dsimp only
        rw [Bool.or_eq_true, Bool.and_eq_true, Bool.and_eq_true]
        rcases hnb with ⟨h1, h2⟩ | ⟨h1, h2⟩
        · exact Or.inl ⟨decide_eq_true h1, decide_eq_true h2⟩
        · exact Or.inr ⟨decide_eq_true h1, decide_eq_true h2⟩

/-- C8: teleport click behaviour in each of the five situations (inactive;
no selection; click on the selection; non-adjacent click; 4-adjacent click,
which swaps through `swapTiles`, clears the selection and deactivates the
mode). -/
theorem claim_C8 (t : TeleportController) (b : BoardModel) (pos : TilePos) :
    (t.active = false → t.handleClick b pos = (t, b, none)) ∧
    (t.active = true → t.first = none →
      t.handleClick b pos =
        ({ t with first := some pos }, b, some (TeleportClickResult.select pos))) ∧
    (∀ f, t.active = true → t.first = some f → f = pos →
      t.handleClick b pos =
        ({ t with first := none }, b, some (TeleportClickResult.deselect f))) ∧
    (∀ f, t.active = true → t.first = some f →
      (f.row - pos.row).natAbs + (f.col - pos.col).natAbs ≠ 1 → f ≠ pos →
      t.handleClick b pos =
        ({ t with first := some pos }, b, some (TeleportClickResult.reselect f pos))) ∧
    (∀ f, t.active = true → t.first = some f →
      (f.row - pos.row).natAbs + (f.col - pos.col).natAbs = 1 →
      t.handleClick b pos =
        (⟨false, none⟩, b.swapTiles f pos, some (TeleportClickResult.swap f pos))) := by
  refine ⟨?_, ?_, ?_, ?_, ?_⟩
  · intro h
    unfold TeleportController.handleClick
    rw [h]
    simp
  · intro ht hf
    unfold TeleportController.handleClick
    rw [ht, hf]
    simp
  · intro f ht hf heq
    subst heq
    unfold TeleportController.handleClick
    rw [ht, hf]
    simp
  · intro f ht hf hdist hne
    have hne' : ¬ (f.row = pos.row ∧ f.col = pos.col) := by
      rintro ⟨h1, h2⟩
      apply hne
      cases f
      cases pos
      simp_all
    unfold TeleportController.handleClick
    rw [ht, hf]
    simp only [Bool.true_eq_false, if_false]
    rw [if_neg hne', if_pos hdist]
  · intro f ht hf hdist
    have hne' : ¬ (f.row = pos.row ∧ f.col = pos.col) := by
      rintro ⟨h1, h2⟩
      rw [h1, h2] at hdist
      simp at hdist
    unfold TeleportController.handleClick
    rw [ht, hf]
    simp only [Bool.true_eq_false, if_false]
    rw [if_neg hne', if_neg (by rw [hdist]; exact not_not_intro rfl)]

/-- Witness for C8: a 4-adjacent click on `sampleBoard` swaps and
deactivates. -/
theorem claim_C8_witness :
    TeleportController.handleClick ⟨true, some ⟨0, 0⟩⟩ sampleBoard ⟨0, 1⟩ =
      (⟨false, none⟩, sampleBoard.swapTiles ⟨0, 0⟩ ⟨0, 1⟩,
        some (TeleportClickResult.swap ⟨0, 0⟩ ⟨0, 1⟩)) :=
  (claim_C8 ⟨true, some ⟨0, 0⟩⟩ sampleBoard ⟨0, 1⟩).2.2.2.2 ⟨0, 0⟩ rfl rfl (by decide)

theorem mem_intRange {lo hi x : Int} : x ∈ intRange lo hi ↔ lo ≤ x ∧ x ≤ hi := by
  unfold intRange
  constructor
  · intro h
    rcases List.mem_map.mp h with ⟨i, hmem, hx⟩
    rw [List.mem_range] at hmem
    subst hx
    omega
  · intro h
    exact List.mem_map.mpr
      ⟨(x - lo).toNat, List.mem_range.mpr (by omega), by omega⟩

/-- C7: while active, `BombController.handleClick` deactivates immediately
(so a second click yields an empty result), does not touch the board (the
model returns no board at all), and returns exactly the occupied in-bounds
cells within Chebyshev distance `radius` of the click; while inactive it
returns an empty list. -/
theorem claim_C7 (bc : BombController) (b : BoardModel) (row col : Int) :
    (bc.active = false → bc.handleClick b row col = (bc, [])) ∧
    (bc.active = true →
      (bc.handleClick b row col).1 = { bc with active := false } ∧
      (bc.handleClick b row col).1.handleClick b row col =
        ((bc.handleClick b row col).1, []) ∧
      ∀ p : TilePos, p ∈ (bc.handleClick b row col).2 ↔
        (b.inBounds p.row p.col ∧ (b.grid p.row.toNat p.col.toNat).isSome = true ∧
         ((p.row - row).natAbs : Int) ≤ bc.radius ∧
         ((p.col - col).natAbs : Int) ≤ bc.radius)) := by
  constructor
  · intro h
    unfold BombController.handleClick
    rw [h]
    simp
  · intro ht
    have hmain : bc.handleClick b row col =
        ({ bc with active := false },
         (intRange (row - bc.radius) (row + bc.radius)).flatMap (fun r =>
           (intRange (col - bc.radius) (col + bc.radius)).filterMap (fun c =>
             if b.inBounds r c then
               if (b.grid r.toNat c.toNat).isSome then some ⟨r, c⟩ else none
             else none))) := by
      unfold BombController.handleClick
      rw [ht]
      simp
    refine ⟨by rw [hmain], ?_, ?_⟩
    · rw [hmain]
      unfold BombController.handleClick
      simp
    · intro p
      rw [hmain]
      simp only [List.mem_flatMap, List.mem_filterMap, mem_intRange]
      constructor
      · rintro ⟨r, hr, c, hc, hf⟩
        by_cases hin : b.inBounds r c
        · rw [if_pos hin] at hf
          by_cases hs : (b.grid r.toNat c.toNat).isSome = true
          · rw [if_pos hs] at hf
            injection hf with hf
            subst hf
            refine ⟨hin, hs, ?_, ?_⟩ <;> (dsimp only; omega)
          · rw [if_neg hs] at hf
            cases hf
        · rw [if_neg hin] at hf
          cases hf
      · rintro ⟨hin, hs, hdr, hdc⟩
        refine ⟨p.row, by omega, p.col, by omega, ?_⟩
        rw [if_pos hin, if_pos hs]

/-- Witness for C7: on `sampleBoard`, an active radius-1 bomb clicked at
the origin deactivates and its cell list contains the diagonal cell. -/
theorem claim_C7_witness :
    (BombController.handleClick ⟨true, 1⟩ sampleBoard 0 0).1 = ⟨false, 1⟩ ∧
    (⟨1, 1⟩ ∈ (BombController.handleClick ⟨true, 1⟩ sampleBoard 0 0).2 ↔
      (sampleBoard.inBounds (1 : Int) (1 : Int) ∧
        (sampleBoard.grid (Int.toNat 1) (Int.toNat 1)).isSome = true ∧
        (((1 : Int) - 0).natAbs : Int) ≤ (1 : Int) ∧
        (((1 : Int) - 0).natAbs : Int) ≤ (1 : Int))) :=
  ⟨((claim_C7 ⟨true, 1⟩ sampleBoard 0 0).2 rfl).1,
   ((claim_C7 ⟨true, 1⟩ sampleBoard 0 0).2 rfl).2.2 ⟨1, 1⟩⟩

theorem tilePos_eq_iff (p q : TilePos) : p = q ↔ (p.row = q.row ∧ p.col = q.col) := by
  cases p
  cases q
  simp

namespace BoardModel

theorem removeGroupCell_rows (b : BoardModel) (p : TilePos) :
    (b.removeGroupCell p).rows = b.rows := by
  unfold removeGroupCell
  split <;> rfl

theorem removeGroupCell_cols (b : BoardModel) (p : TilePos) :
    (b.removeGroupCell p).cols = b.cols := by
  unfold removeGroupCell
  split <;> rfl

theorem removeGroup_rows (b : BoardModel) (l : List TilePos) :
    (b.removeGroup l).rows = b.rows := by
  induction l generalizing b with
  | nil => rfl
  | cons x xs ih =>
    show ((b.removeGroupCell x).removeGroup xs).rows = b.rows
    rw [ih, removeGroupCell_rows]

theorem removeGroup_cols (b : BoardModel) (l : List TilePos) :
    (b.removeGroup l).cols = b.cols := by
  induction l generalizing b with
  | nil => rfl
  | cons x xs ih =>
    show ((b.removeGroupCell x).removeGroup xs).cols = b.cols
    rw [ih, removeGroupCell_cols]

theorem inBounds_of_dims {b b' : BoardModel} (h1 : b'.rows = b.rows)
    (h2 : b'.cols = b.cols) (row col : Int) :
    b'.inBounds row col ↔ b.inBounds row col := by
  unfold inBounds
  rw [h1, h2]

theorem removeGroupCell_grid_none (b : BoardModel) (p : TilePos) (r c : Nat)
    (h : b.grid r c = none) : (b.removeGroupCell p).grid r c = none := by
  unfold removeGroupCell
  split
  · show updFn b.grid p.row.toNat p.col.toNat none r c = none
    unfold updFn
    split
    · rfl
    · exact h
  · exact h

theorem removeGroup_grid_none (b : BoardModel) (l : List TilePos) (r c : Nat)
    (h : b.grid r c = none) : (b.removeGroup l).grid r c = none := by
  induction l generalizing b with
  | nil => exact h
  | cons x xs ih =>
    show ((b.removeGroupCell x).removeGroup xs).grid r c = none
    exact ih _ (removeGroupCell_grid_none b x r c h)

theorem removeGroup_grid_mem (b : BoardModel) (l : List TilePos) (p : TilePos)
    (hp : p ∈ l) (hin : b.inBounds p.row p.col) :
    (b.removeGroup l).grid p.row.toNat p.col.toNat = none := by
  induction l generalizing b with
  | nil => cases hp
  | cons x xs ih =>
    show ((b.removeGroupCell x).removeGroup xs).grid p.row.toNat p.col.toNat = none
    rcases List.mem_cons.mp hp with heq | hmem
    · subst heq
      apply removeGroup_grid_none
      unfold removeGroupCell
      rw [if_pos hin]
      show updFn b.grid p.row.toNat p.col.toNat none p.row.toNat p.col.toNat = none
      unfold updFn
      rw [if_pos ⟨rfl, rfl⟩]
    · refine ih _ hmem ?_
      exact (inBounds_of_dims (removeGroupCell_rows b x) (removeGroupCell_cols b x)
        p.row p.col).mpr hin

theorem removeGroupCell_grid_other (b : BoardModel) (x : TilePos) (r c : Nat)
    (h : ¬ (b.inBounds x.row x.col ∧ x.row.toNat = r ∧ x.col.toNat = c)) :
    (b.removeGroupCell x).grid r c = b.grid r c := by
  unfold removeGroupCell
  split
  · rename_i hin
    show updFn b.grid x.row.toNat x.col.toNat none r c = b.grid r c
    unfold updFn
    split
    · rename_i heq
      exact absurd ⟨hin, heq.1.symm, heq.2.symm⟩ h
    · rfl
  · rfl

theorem removeGroup_grid_other (b : BoardModel) (l : List TilePos) (r c : Nat)
    (h : ∀ p ∈ l, ¬ (b.inBounds p.row p.col ∧ p.row.toNat = r ∧ p.col.toNat = c)) :
    (b.removeGroup l).grid r c = b.grid r c := by
  induction l generalizing b with
  | nil => rfl
  | cons x xs ih =>
    show ((b.removeGroupCell x).removeGroup xs).grid r c = b.grid r c
    have h2 : ∀ p ∈ xs,
        ¬ ((b.removeGroupCell x).inBounds p.row p.col ∧ p.row.toNat = r ∧ p.col.toNat = c) := by
      intro p hp hcon
      exact h p (List.mem_cons_of_mem x hp)
        ⟨(inBounds_of_dims (removeGroupCell_rows b x) (removeGroupCell_cols b x)
            p.row p.col).mp hcon.1, hcon.2⟩
    rw [ih _ h2, removeGroupCell_grid_other b x r c (h x (List.mem_cons_self x xs))]

end BoardModel

/-- C4 (amended): `swapTiles` with an out-of-bounds endpoint is a no-op, and
`explode` with an in-range row index never aborts: it returns a none result
whenever the addressed cell is not a MegaBomb (including an out-of-range
column) or the board is empty.  With an out-of-range row index, however,
`explode` aborts (the unchecked JS read throws) instead of returning none —
see the counterexample. -/
theorem claim_C4 (b : BoardModel) :
    (∀ a p : TilePos, ¬ (b.inBounds a.row a.col ∧ b.inBounds p.row p.col) →
      b.swapTiles a p = b) ∧
    (∀ row col : Int, 0 ≤ row → row < (b.rows : Int) →
      ∃ res, MegaBombController.explode b row col = Except.ok res) ∧
    (∀ row col : Int, 0 ≤ row → row < (b.rows : Int) →
      readCellE b row col ≠ Except.ok (some TileColor.MegaBomb) →
      MegaBombController.explode b row col = Except.ok (none, b)) ∧
    (∀ row col : Int, 0 ≤ row → row < (b.rows : Int) →
      (∀ r, r < b.rows → ∀ c, c < b.cols → b.grid r c = none) →
      MegaBombController.explode b row col = Except.ok (none, b)) ∧
    (∀ row col : Int, ¬ (0 ≤ row ∧ row < (b.rows : Int)) →
      MegaBombController.explode b row col = Except.error ()) := by
  have hread : ∀ row col : Int, 0 ≤ row → row < (b.rows : Int) →
      readCellE b row col =
        Except.ok (if 0 ≤ col ∧ col < (b.cols : Int) then b.grid row.toNat col.toNat else none) := by
    intro row col h0 h1
    unfold readCellE
    rw [if_pos ⟨h0, h1⟩]
  refine ⟨?_, ?_, ?_, ?_, ?_⟩
  · intro a p h
    unfold BoardModel.swapTiles
    rw [if_neg h]
  · intro row col h0 h1
    unfold MegaBombController.explode
    rw [hread row col h0 h1]
    dsimp only
    by_cases hv : (if 0 ≤ col ∧ col < (b.cols : Int) then b.grid row.toNat col.toNat
        else none) ≠ some TileColor.MegaBomb
    · rw [if_pos hv]
      exact ⟨_, rfl⟩
    · rw [if_neg hv]
      by_cases hn : b.occupiedCells.length = 0
      · rw [if_pos hn]
        exact ⟨_, rfl⟩
      · rw [if_neg hn]
        exact ⟨_, rfl⟩
  · intro row col h0 h1 hne
    rw [hread row col h0 h1] at hne
    unfold MegaBombController.explode
    rw [hread row col h0 h1]
    dsimp only
    rw [if_pos (fun hcon => hne (by rw [hcon]))]
  · intro row col h0 h1 hempty
    unfold MegaBombController.explode
    rw [hread row col h0 h1]
    dsimp only
    rw [if_pos ?_]
    intro hcon
    by_cases hc : 0 ≤ col ∧ col < (b.cols : Int)
    · rw [if_pos hc] at hcon
      rw [hempty row.toNat (by omega) col.toNat (by omega)] at hcon
      cases hcon
    · rw [if_neg hc] at hcon
      cases hcon
  · intro row col h
    unfold MegaBombController.explode
    have : readCellE b row col = Except.error () := by
      unfold readCellE
      rw [if_neg h]
    rw [this]

/-- Counterexample for C4 as stated: `explode` with an out-of-range row
index aborts with a thrown error rather than returning a none result. -/
theorem claim_C4_counterexample :
    MegaBombController.explode sampleBoard 5 0 = Except.error () := by
  have h : readCellE sampleBoard 5 0 = Except.error () := by
    unfold readCellE
    rw [if_neg (by decide)]
  unfold MegaBombController.explode
  rw [h]

/-- Witness for C4 on `sampleBoard`. -/
theorem claim_C4_witness :
    sampleBoard.swapTiles ⟨5, 0⟩ ⟨0, 0⟩ = sampleBoard ∧
    (∃ res, MegaBombController.explode sampleBoard 0 0 = Except.ok res) ∧
    MegaBombController.explode sampleBoard 0 0 = Except.ok (none, sampleBoard) :=
  ⟨(claim_C4 sampleBoard).1 ⟨5, 0⟩ ⟨0, 0⟩ (by decide),
   (claim_C4 sampleBoard).2.1 0 0 (by decide) (by decide),
   (claim_C4 sampleBoard).2.2.1 0 0 (by decide) (by decide)
     (by
       intro h
       rw [show readCellE sampleBoard 0 0 = Except.ok (some TileColor.Red) from rfl] at h
       injection h with h1
       injection h1 with h2
       exact absurd h2 (by decide))⟩

/-- C9 (amended): `createFromGroup(group, center)` with
`group.length < megaBombMinGroupSize` returns created=false and mutates
nothing, for every center; with `group.length ≥ megaBombMinGroupSize` and a
center whose coordinates are non-negative with an in-range row (true of
every center produced by a tile click), it removes every in-bounds group
cell other than center, marks center with the MegaBomb color, touches no
other cell, and returns a removedCells list that contains exactly the group
cells different from center — in particular never center itself.  (With an
out-of-range center row the JS write throws instead; see the
counterexample.) -/
theorem claim_C9 (mgs : Int) (b : BoardModel) (group : List TilePos) (center : TilePos) :
    ((group.length : Int) < mgs →
      MegaBombController.createFromGroup mgs b group center =
        Except.ok (⟨false, none, []⟩, b)) ∧
    (¬ (group.length : Int) < mgs → 0 ≤ center.row → center.row < (b.rows : Int) →
      0 ≤ center.col →
      ∃ b' : BoardModel,
        MegaBombController.createFromGroup mgs b group center =
          Except.ok (⟨true, some center,
            group.filter (fun p => decide (¬ (p.row = center.row ∧ p.col = center.col)))⟩, b') ∧
        center ∉ group.filter (fun p => decide (¬ (p.row = center.row ∧ p.col = center.col))) ∧
        (∀ p : TilePos,
          p ∈ group.filter (fun p => decide (¬ (p.row = center.row ∧ p.col = center.col))) ↔
            p ∈ group ∧ p ≠ center) ∧
        b'.grid center.row.toNat center.col.toNat = some TileColor.MegaBomb ∧
        (∀ p ∈ group, p ≠ center → b.inBounds p.row p.col →
          b'.grid p.row.toNat p.col.toNat = none) ∧
        (∀ r c : Nat,
          ¬ ((center.row.toNat = r ∧ center.col.toNat = c) ∨
            ∃ p ∈ group, b.inBounds p.row p.col ∧ p.row.toNat = r ∧ p.col.toNat = c) →
          b'.grid r c = b.grid r c)) := by
  constructor
  · intro hlt
    unfold MegaBombController.createFromGroup
    rw [if_pos hlt]
  · intro hge hr0 hr1 hc0
    set wc := group.filter (fun p => decide (¬ (p.row = center.row ∧ p.col = center.col)))
      with hwc
    have hmemwc : ∀ p : TilePos, p ∈ wc ↔ p ∈ group ∧ p ≠ center := by
      intro p
      rw [hwc, List.mem_filter]
      constructor
      · rintro ⟨h1, h2⟩
        refine ⟨h1, fun heq => of_decide_eq_true h2 ?_⟩
        rw [heq]
        exact ⟨rfl, rfl⟩
      · rintro ⟨h1, h2⟩
        refine ⟨h1, decide_eq_true ?_⟩
        intro hcon
        exact h2 ((tilePos_eq_iff p center).mpr hcon)
    have hrun : MegaBombController.createFromGroup mgs b group center =
        Except.ok (⟨true, some center, wc⟩,
          { BoardModel.removeGroup b wc with
            grid := updFn (BoardModel.removeGroup b wc).grid
              center.row.toNat center.col.toNat (some TileColor.MegaBomb) }) := by
      simp only [MegaBombController.createFromGroup, ← hwc]
      rw [if_neg hge, if_pos (⟨hr0, hr1⟩ : 0 ≤ center.row ∧ center.row < (b.rows : Int)),
        if_pos hc0]
    refine ⟨_, hrun, ?_, hmemwc, ?_, ?_, ?_⟩
    · intro hmem
      exact ((hmemwc center).mp hmem).2 rfl
    · show updFn (BoardModel.removeGroup b wc).grid
        center.row.toNat center.col.toNat (some TileColor.MegaBomb)
        center.row.toNat center.col.toNat = some TileColor.MegaBomb
      unfold updFn
      rw [if_pos ⟨rfl, rfl⟩]
    · intro p hp hne hin
      show updFn (BoardModel.removeGroup b wc).grid
        center.row.toNat center.col.toNat (some TileColor.MegaBomb)
        p.row.toNat p.col.toNat = none
      have hneq : ¬ (p.row.toNat = center.row.toNat ∧ p.col.toNat = center.col.toNat) := by
        rintro ⟨h1, h2⟩
        apply hne
        apply (tilePos_eq_iff p center).mpr
        have hin' := hin
        unfold BoardModel.inBounds at hin'
        constructor <;> omega
      unfold updFn
      rw [if_neg hneq]
      exact BoardModel.removeGroup_grid_mem b wc p ((hmemwc p).mpr ⟨hp, hne⟩) hin
    · intro r c hnt
      show updFn (BoardModel.removeGroup b wc).grid
        center.row.toNat center.col.toNat (some TileColor.MegaBomb) r c = b.grid r c
      have h1 : ¬ (r = center.row.toNat ∧ c = center.col.toNat) := by
        rintro ⟨ha, hb⟩
        exact hnt (Or.inl ⟨ha.symm, hb.symm⟩)
      unfold updFn
      rw [if_neg h1]
      apply BoardModel.removeGroup_grid_other
      intro p hp hcon
      exact hnt (Or.inr ⟨p, ((hmemwc p).mp hp).1, hcon⟩)

/-- Counterexample for C9 as stated: with an out-of-range center row the
creation path aborts (the unchecked JS write throws) instead of performing
the described removal and marking. -/
theorem claim_C9_counterexample :
    MegaBombController.createFromGroup GameConfig.megaBombMinGroupSize sampleBoard
      fiveCellGroup ⟨-1, 0⟩ = Except.error () := by
  simp only [MegaBombController.createFromGroup]
  rw [if_neg (by decide), if_neg (by decide)]

/-- Witness for C9: the no-op branch with a too-small threshold margin, and
the successful creation branch on `sampleBoard` at center (0,0). -/
theorem claim_C9_witness :
    MegaBombController.createFromGroup 7 sampleBoard fiveCellGroup ⟨0, 0⟩ =
      Except.ok (⟨false, none, []⟩, sampleBoard) ∧
    ∃ b' : BoardModel,
      MegaBombController.createFromGroup 5 sampleBoard fiveCellGroup ⟨0, 0⟩ =
        Except.ok (⟨true, some ⟨0, 0⟩,
          fiveCellGroup.filter (fun p =>
            decide (¬ (p.row = (⟨0, 0⟩ : TilePos).row ∧ p.col = (⟨0, 0⟩ : TilePos).col)))⟩,
          b') ∧
      (⟨0, 0⟩ : TilePos) ∉ fiveCellGroup.filter (fun p =>
        decide (¬ (p.row = (⟨0, 0⟩ : TilePos).row ∧ p.col = (⟨0, 0⟩ : TilePos).col))) ∧
      (∀ p : TilePos,
        p ∈ fiveCellGroup.filter (fun p =>
          decide (¬ (p.row = (⟨0, 0⟩ : TilePos).row ∧ p.col = (⟨0, 0⟩ : TilePos).col))) ↔
          p ∈ fiveCellGroup ∧ p ≠ ⟨0, 0⟩) ∧
      b'.grid (⟨0, 0⟩ : TilePos).row.toNat (⟨0, 0⟩ : TilePos).col.toNat =
        some TileColor.MegaBomb ∧
      (∀ p ∈ fiveCellGroup, p ≠ (⟨0, 0⟩ : TilePos) →
        sampleBoard.inBounds p.row p.col → b'.grid p.row.toNat p.col.toNat = none) ∧
      (∀ r c : Nat,
        ¬ (((⟨0, 0⟩ : TilePos).row.toNat = r ∧ (⟨0, 0⟩ : TilePos).col.toNat = c) ∨
          ∃ p ∈ fiveCellGroup, sampleBoard.inBounds p.row p.col ∧
            p.row.toNat = r ∧ p.col.toNat = c) →
        b'.grid r c = sampleBoard.grid r c) :=
  ⟨(claim_C9 7 sampleBoard fiveCellGroup ⟨0, 0⟩).1 (by decide),
   (claim_C9 5 sampleBoard fiveCellGroup ⟨0, 0⟩).2 (by decide) (by decide) (by decide)
     (by decide)⟩

theorem rangeMap_getElem? {α : Type} (n : Nat) (f : Nat → α) (i : Nat) :
    ((List.range n).map f)[i]? = if i < n then some (f i) else none := by
  rw [List.getElem?_map]
  by_cases h : i < n
  · rw [List.getElem?_range h, if_pos h]
    rfl
  · rw [if_neg h, List.getElem?_eq_none_iff.mpr (by simpa using Nat.le_of_not_lt h)]
    rfl

theorem rangeMap_getD {α : Type} (n : Nat) (f : Nat → α) (i : Nat) (d : α)
    (h : i < n) : ((List.range n).map f).getD i d = f i := by
  rw [List.getD_eq_getElem?_getD, rangeMap_getElem?, if_pos h]
  rfl

theorem range_map_getD_self {α : Type} (l : List α) (d : α) :
    (List.range l.length).map (fun i => l.getD i d) = l := by
  apply List.ext_getElem?
  intro i
  rw [rangeMap_getElem?]
  by_cases h : i < l.length
  · rw [if_pos h, List.getD_eq_getElem l d h, List.getElem?_eq_getElem h]
  · rw [if_neg h, List.getElem?_eq_none_iff.mpr (Nat.le_of_not_lt h)]

theorem colMid_length (cells : List Cell) (r : Nat) :
    (colMid cells r).length = cells.length := by
  simp [colMid]

theorem colMid_getElem? (cells : List Cell) (r i : Nat) :
    (colMid cells r)[i]? = if i < cells.length then some (colMidFn cells r i) else none := by
  unfold colMid
  exact rangeMap_getElem? cells.length (colMidFn cells r) i

theorem colMid_getD (cells : List Cell) (r i : Nat) (h : i < cells.length) :
    (colMid cells r).getD i emptyCell = colMidFn cells r i := by
  unfold colMid
  exact rangeMap_getD cells.length (colMidFn cells r) i emptyCell h

theorem colMid_self (cells : List Cell) : colMid cells cells.length = cells := by
  unfold colMid
  have h : ∀ i ∈ List.range cells.length,
      colMidFn cells cells.length i = cells.getD i emptyCell := by
    intro i hi
    rw [List.mem_range] at hi
    unfold colMidFn
    rw [if_pos hi]
  rw [List.map_congr_left h]
  exact range_map_getD_self cells emptyCell

theorem survCount_le (cells : List Cell) (r : Nat) :
    survCountFrom cells r ≤ cells.length - r := by
  unfold survCountFrom survivors
  have h1 := List.length_filterMap_le
    (fun (x : Cell) => x.1.map (fun v => (v, x.2))) (cells.drop r)
  rw [List.length_drop] at h1
  exact h1

theorem survCount_last (cells : List Cell) : survCountFrom cells cells.length = 0 := by
  unfold survCountFrom
  rw [List.drop_length]
  rfl

theorem survivors_drop_none (cells : List Cell) (r : Nat) (h : r < cells.length)
    (hc : (cells.getD r emptyCell).1 = none) :
    survivors (cells.drop r) = survivors (cells.drop (r + 1)) := by
  rw [List.drop_eq_getElem_cons h]
  unfold survivors
  rw [List.filterMap_cons]
  rw [List.getD_eq_getElem cells emptyCell h] at hc
  rw [hc]
  rfl

theorem survivors_drop_some (cells : List Cell) (r : Nat) (h : r < cells.length)
    (v : TileColor) (hc : (cells.getD r emptyCell).1 = some v) :
    survivors (cells.drop r) =
      (v, (cells.getD r emptyCell).2) :: survivors (cells.drop (r + 1)) := by
  rw [List.drop_eq_getElem_cons h]
  unfold survivors
  rw [List.filterMap_cons]
  rw [List.getD_eq_getElem cells emptyCell h] at hc ⊢
  rw [hc]
  rfl

theorem survCount_succ_none (cells : List Cell) (r : Nat) (h : r < cells.length)
    (hc : (cells.getD r emptyCell).1 = none) :
    survCountFrom cells r = survCountFrom cells (r + 1) := by
  unfold survCountFrom
  rw [survivors_drop_none cells r h hc]

theorem survCount_succ_some (cells : List Cell) (r : Nat) (h : r < cells.length)
    (v : TileColor) (hc : (cells.getD r emptyCell).1 = some v) :
    survCountFrom cells r = survCountFrom cells (r + 1) + 1 := by
  unfold survCountFrom
  rw [survivors_drop_some cells r h v hc]
  rfl

theorem clearAbove_getElem? (w : Int) (l : List Cell) (i : Nat) :
    (clearAbove w l)[i]? =
      (l[i]?).map (fun x => if (i : Int) ≤ w then emptyCell else x) := by
  induction l generalizing w i with
  | nil => rfl
  | cons x xs ih =>
    cases i with
    | zero =>
      show (clearAbove w (x :: xs))[0]? = _
      unfold clearAbove
      rw [List.getElem?_cons_zero, List.getElem?_cons_zero]
      show some (if 0 ≤ w then emptyCell else x) =
        some (if ((0 : Nat) : Int) ≤ w then emptyCell else x)
      rw [Nat.cast_zero]
    | succ j =>
      show (clearAbove w (x :: xs))[j + 1]? = _
      unfold clearAbove
      rw [List.getElem?_cons_succ, List.getElem?_cons_succ, ih (w - 1) j]
      cases hx : xs[j]? with
      | none => rfl
      | some a =>
        show some (if (j : Int) ≤ w - 1 then emptyCell else a) =
          some (if ((j + 1 : Nat) : Int) ≤ w then emptyCell else a)
        by_cases hj : (j : Int) ≤ w - 1
        · rw [if_pos hj, if_pos (by push_cast; omega)]
        · rw [if_neg hj, if_neg (by push_cast at hj ⊢; omega)]

theorem clearAbove_length (w : Int) (l : List Cell) :
    (clearAbove w l).length = l.length := by
  induction l generalizing w with
  | nil => rfl
  | cons x xs ih =>
    show (clearAbove w (x :: xs)).length = _
    unfold clearAbove
    rw [List.length_cons, List.length_cons, ih]

theorem colMid_succ_none (cells : List Cell) (r : Nat) (hr : r < cells.length)
    (hc : (cells.getD r emptyCell).1 = none) :
    colMid cells (r + 1) = colMid cells r := by
  have hk := survCount_succ_none cells r hr hc
  have hle1 := survCount_le cells (r + 1)
  apply List.ext_getElem?
  intro i
  rw [colMid_getElem?, colMid_getElem?]
  by_cases hi : i < cells.length
  swap
  · rw [if_neg hi, if_neg hi]
  rw [if_pos hi, if_pos hi]
  congr 1
  unfold colMidFn
  rw [← hk, ← survivors_drop_none cells r hr hc]
  by_cases h1 : i < r
  · rw [if_pos (by omega), if_pos h1]
  by_cases h2 : i = r
  · subst h2
    rw [if_pos (Nat.lt_succ_self i), if_neg (lt_irrefl i)]
    rw [if_pos (by omega)]
    have hs : (cells.getD i emptyCell).1.isSome = false := by rw [hc]; rfl
    rw [hs]
    simp
  · rw [if_neg (by omega), if_neg h1]

theorem colMid_succ_stay (cells : List Cell) (r : Nat) (hr : r < cells.length)
    (v : TileColor) (hcell : (cells.getD r emptyCell).1 = some v)
    (hstay : r = cells.length - survCountFrom cells r) :
    colMid cells (r + 1) = colMid cells r := by
  have hk := survCount_succ_some cells r hr v hcell
  have hsur := survivors_drop_some cells r hr v hcell
  have hle1 := survCount_le cells (r + 1)
  have hle0 := survCount_le cells r
  apply List.ext_getElem?
  intro i
  rw [colMid_getElem?, colMid_getElem?]
  by_cases hi : i < cells.length
  swap
  · rw [if_neg hi, if_neg hi]
  rw [if_pos hi, if_pos hi]
  congr 1
  unfold colMidFn
  by_cases h1 : i < r
  · rw [if_pos (by omega), if_pos h1]
  by_cases h2 : i = r
  · subst h2
    rw [if_pos (Nat.lt_succ_self i), if_neg (lt_irrefl i)]
    rw [if_neg (by omega)]
    rw [hsur]
    have hoff : i - (cells.length - survCountFrom cells i) = 0 := by omega
    rw [hoff, List.getD_cons_zero]
    show cells.getD i emptyCell = (some v, (cells.getD i emptyCell).2)
    rw [← hcell]
  · rw [if_neg (show ¬ i < r + 1 by omega), if_neg h1]
    rw [if_neg (show ¬ i < cells.length - survCountFrom cells (r + 1) by omega),
      if_neg (show ¬ i < cells.length - survCountFrom cells r by omega)]
    rw [hsur]
    have hidx : i - (cells.length - survCountFrom cells r) =
        (i - (cells.length - survCountFrom cells (r + 1))) + 1 := by omega
    rw [hidx, List.getD_cons_succ]

theorem colMid_set_move (cells : List Cell) (r : Nat) (hr : r < cells.length)
    (v : TileColor) (hcell : (cells.getD r emptyCell).1 = some v)
    (hmove : r ≠ cells.length - survCountFrom cells r) :
    ((colMid cells (r + 1)).set (cells.length - survCountFrom cells r)
        (some v, (cells.getD r emptyCell).2)).set r emptyCell = colMid cells r := by
  have hk := survCount_succ_some cells r hr v hcell
  have hsur := survivors_drop_some cells r hr v hcell
  have hle1 := survCount_le cells (r + 1)
  have hle0 := survCount_le cells r
  have hrlt : r < cells.length - survCountFrom cells r := by omega
  apply List.ext_getElem?
  intro i
  rw [List.getElem?_set, List.getElem?_set]
  by_cases hi : i < cells.length
  swap
  · rw [if_neg (show ¬ r = i by omega),
      if_neg (show ¬ cells.length - survCountFrom cells r = i by omega),
      colMid_getElem?, colMid_getElem?, if_neg hi, if_neg hi]
  by_cases h1 : i < r
  · rw [if_neg (show ¬ r = i by omega),
      if_neg (show ¬ cells.length - survCountFrom cells r = i by omega),
      colMid_getElem?, colMid_getElem?, if_pos hi, if_pos hi]
    congr 1
    unfold colMidFn
    rw [if_pos (by omega), if_pos h1]
  by_cases h2 : i = r
  · subst h2
    rw [if_pos rfl, if_pos (by rw [List.length_set, colMid_length]; exact hi)]
    rw [colMid_getElem?, if_pos hi]
    congr 1
    unfold colMidFn
    rw [if_neg (lt_irrefl i), if_pos (by omega)]
    have hs : (cells.getD i emptyCell).1.isSome = true := by rw [hcell]; rfl
    rw [hs]
    simp
  by_cases h3 : i = cells.length - survCountFrom cells r
  · rw [if_neg (by omega), if_pos h3.symm, if_pos (by rw [colMid_length]; omega)]
    rw [colMid_getElem?, if_pos hi]
    congr 1
    unfold colMidFn
    rw [if_neg (by omega), if_neg (by omega)]
    rw [hsur]
    have hoff : i - (cells.length - survCountFrom cells r) = 0 := by omega
    rw [hoff, List.getD_cons_zero]
  · rw [if_neg (by omega), if_neg (by omega),
      colMid_getElem?, colMid_getElem?, if_pos hi, if_pos hi]
    congr 1
    unfold colMidFn
    rw [if_neg (show ¬ i < r + 1 by omega), if_neg h1]
    by_cases h4 : i < cells.length - survCountFrom cells r
    · rw [if_pos (show i < cells.length - survCountFrom cells (r + 1) by omega), if_pos h4]
    · rw [if_neg (show ¬ i < cells.length - survCountFrom cells (r + 1) by omega), if_neg h4]
      rw [hsur]
      have hidx : i - (cells.length - survCountFrom cells r) =
          (i - (cells.length - survCountFrom cells (r + 1))) + 1 := by omega
      rw [hidx, List.getD_cons_succ]

theorem gravityStep_spec (cells : List Cell) (c r : Nat) (hr : r < cells.length)
    (ms : List GravityMovement) :
    gravityStep c
      ⟨colMid cells (r + 1),
        (cells.length : Int) - 1 - (survCountFrom cells (r + 1) : Int), ms⟩ r
      = ⟨colMid cells r,
          (cells.length : Int) - 1 - (survCountFrom cells r : Int),
          ms ++ moveAt cells c r⟩ := by
  have hread : (colMid cells (r + 1)).getD r emptyCell = cells.getD r emptyCell := by
    rw [colMid_getD cells (r + 1) r hr]
    unfold colMidFn
    rw [if_pos (Nat.lt_succ_self r)]
  simp only [gravityStep, hread]
  cases hcell : (cells.getD r emptyCell).1 with
  | none =>
    have hk := survCount_succ_none cells r hr hcell
    have hmv : moveAt cells c r = [] := by
      unfold moveAt
      rw [hcell]
    rw [colMid_succ_none cells r hr hcell, hk, hmv, List.append_nil]
  | some v =>
    dsimp only
    have hk := survCount_succ_some cells r hr v hcell
    have hle0 := survCount_le cells r
    by_cases hstay :
        (r : Int) = (cells.length : Int) - 1 - (survCountFrom cells (r + 1) : Int)
    · rw [if_pos hstay]
      have hstayN : r = cells.length - survCountFrom cells r := by omega
      have hmv : moveAt cells c r = [] := by
        unfold moveAt
        rw [hcell]
        dsimp only
        rw [if_pos (show ((gravityDest cells r : Nat) : Int) = (r : Int) by
          unfold gravityDest; omega)]
      rw [hmv, List.append_nil, colMid_succ_stay cells r hr v hcell hstayN]
      congr 1
      omega
    · rw [if_neg hstay]
      have hmoveN : r ≠ cells.length - survCountFrom cells r := by omega
      have htoNat : ((cells.length : Int) - 1 - (survCountFrom cells (r + 1) : Int)).toNat
          = cells.length - survCountFrom cells r := by omega
      have hdest : ((gravityDest cells r : Nat) : Int)
          = (cells.length : Int) - 1 - (survCountFrom cells (r + 1) : Int) := by
        unfold gravityDest
        omega
      have hmv : moveAt cells c r =
          [⟨⟨(r : Int), (c : Int)⟩,
            ⟨(cells.length : Int) - 1 - (survCountFrom cells (r + 1) : Int), (c : Int)⟩,
            v⟩] := by
        unfold moveAt
        rw [hcell]
        dsimp only
        rw [if_neg (show ¬ ((gravityDest cells r : Nat) : Int) = (r : Int) by
          unfold gravityDest; omega), hdest]
      rw [htoNat, colMid_set_move cells r hr v hcell hmoveN, hmv]
      congr 1
      omega

theorem gravityLoop_spec (cells : List Cell) (c : Nat) :
    ∀ r, r ≤ cells.length → ∀ ms : List GravityMovement,
      gravityLoop c r
          ⟨colMid cells r, (cells.length : Int) - 1 - (survCountFrom cells r : Int), ms⟩
        = ⟨colMid cells 0, (cells.length : Int) - 1 - (survCountFrom cells 0 : Int),
            ms ++ movesBelow cells c r⟩ := by
  intro r
  induction r with
  | zero =>
    intro _ ms
    show (⟨colMid cells 0, _, ms⟩ : ColState) = _
    rw [show movesBelow cells c 0 = [] from rfl, List.append_nil]
  | succ r ih =>
    intro hr ms
    show gravityLoop c r
        (gravityStep c
          ⟨colMid cells (r + 1),
            (cells.length : Int) - 1 - (survCountFrom cells (r + 1) : Int), ms⟩ r) = _
    rw [gravityStep_spec cells c r (by omega) ms,
      ih (by omega) (ms ++ moveAt cells c r), List.append_assoc]
    rfl

theorem survCount_zero (cells : List Cell) :
    survCountFrom cells 0 = (survivors cells).length := by
  unfold survCountFrom
  rw [List.drop_zero]

theorem colFinal_length (cells : List Cell) :
    (colFinal cells).length = cells.length := by
  have h := survCount_le cells 0
  rw [survCount_zero] at h
  unfold colFinal
  rw [List.length_append, List.length_replicate, List.length_map]
  omega

theorem gravityColumn_spec (c : Nat) (cells : List Cell) :
    gravityColumn c cells =
      ⟨colFinal cells, (cells.length : Int) - 1 - (survCountFrom cells 0 : Int),
        movesBelow cells c cells.length⟩ := by
  have hks := survCount_zero cells
  have hle := survCount_le cells 0
  unfold gravityColumn
  have hinit : (⟨cells, (cells.length : Int) - 1, []⟩ : ColState)
      = ⟨colMid cells cells.length,
          (cells.length : Int) - 1 - (survCountFrom cells cells.length : Int), []⟩ := by
    rw [colMid_self, survCount_last]
    norm_num
  rw [hinit, gravityLoop_spec cells c cells.length (le_refl _) []]
  show (⟨clearAbove ((cells.length : Int) - 1 - (survCountFrom cells 0 : Int))
      (colMid cells 0),
    (cells.length : Int) - 1 - (survCountFrom cells 0 : Int),
    [] ++ movesBelow cells c cells.length⟩ : ColState) = _
  congr 1
  · apply List.ext_getElem?
    intro i
    rw [clearAbove_getElem?, colMid_getElem?]
    by_cases hi : i < cells.length
    · rw [if_pos hi]
      unfold colFinal
      by_cases h1 : i < cells.length - survCountFrom cells 0
      · rw [List.getElem?_append_left (by rw [List.length_replicate]; omega)]
        rw [List.getElem?_replicate, if_pos (by omega)]
        show some (if (i : Int) ≤ (cells.length : Int) - 1 - (survCountFrom cells 0 : Int)
            then emptyCell else colMidFn cells 0 i) = some emptyCell
        rw [if_pos (by omega)]
      · rw [List.getElem?_append_right (by rw [List.length_replicate]; omega)]
        rw [List.getElem?_map, List.length_replicate]
        have hidx : i - (cells.length - (survivors cells).length) < (survivors cells).length := by
          omega
        rw [List.getElem?_eq_getElem hidx]
        show some (if (i : Int) ≤ (cells.length : Int) - 1 - (survCountFrom cells 0 : Int)
            then emptyCell else colMidFn cells 0 i)
          = some ((fun y => (some y.1, y.2))
              ((survivors cells)[i - (cells.length - (survivors cells).length)]))
        rw [if_neg (by omega)]
        unfold colMidFn
        rw [if_neg (by omega), if_neg (by omega), List.drop_zero, hks,
          List.getD_eq_getElem (survivors cells) (TileColor.Green, TileSpecial.None) hidx]
    · rw [if_neg hi, List.getElem?_eq_none_iff.mpr (by rw [colFinal_length]; omega)]
      rfl

theorem colCells_length (b : BoardModel) (c : Nat) :
    (b.colCells c).length = b.rows := by
  simp [BoardModel.colCells]

theorem colCells_getD (b : BoardModel) (c r : Nat) (h : r < b.rows) :
    (b.colCells c).getD r emptyCell = (b.grid r c, b.specialGrid r c) := by
  unfold BoardModel.colCells
  exact rangeMap_getD b.rows _ r emptyCell h

theorem survivors_map_fst (l : List Cell) :
    (survivors l).map Prod.fst = l.filterMap Prod.fst := by
  induction l with
  | nil => rfl
  | cons x xs ih =>
    show ((x :: xs).filterMap (fun x => x.1.map (fun v => (v, x.2)))).map Prod.fst
      = (x :: xs).filterMap Prod.fst
    rw [List.filterMap_cons, List.filterMap_cons]
    cases hx : x.1 with
    | none => exact ih
    | some v =>
      show ((v, x.2) :: xs.filterMap (fun x => x.1.map (fun v => (v, x.2)))).map Prod.fst
        = v :: xs.filterMap Prod.fst
      rw [List.map_cons]
      exact congrArg (List.cons v) ih

theorem filterMap_id_replicate_none (m : Nat) :
    (List.replicate m (none : Option TileColor)).filterMap id = [] := by
  induction m with
  | zero => rfl
  | succ m ih => simp [List.replicate_succ, List.filterMap_cons, ih]

theorem filterMap_id_map_some_fst (l : List (TileColor × TileSpecial)) :
    (l.map (fun y => some y.1)).filterMap id = l.map Prod.fst := by
  induction l with
  | nil => rfl
  | cons x xs ih => simp [List.filterMap_cons, ih]

theorem colColors_spec (b : BoardModel) (c : Nat) :
    colColors b c = (survivors (b.colCells c)).map Prod.fst := by
  unfold colColors
  rw [survivors_map_fst]
  unfold BoardModel.colCells
  rw [List.filterMap_map, List.filterMap_map]
  rfl

theorem applyGravity_colColors (b : BoardModel) (c : Nat) (hc : c < b.cols) :
    colColors b.applyGravity.1 c = colColors b c := by
  rw [colColors_spec b c]
  unfold colColors
  rw [show b.applyGravity.1.rows = b.rows from rfl]
  have hlist : (List.range b.rows).map (fun r => b.applyGravity.1.grid r c)
      = (colFinal (b.colCells c)).map Prod.fst := by
    apply List.ext_getElem?
    intro i
    rw [rangeMap_getElem?, List.getElem?_map]
    by_cases hi : i < b.rows
    · rw [if_pos hi]
      have hg : b.applyGravity.1.grid i c
          = ((gravityColumn c (b.colCells c)).cells.getD i emptyCell).1 := by
        show (if i < b.rows ∧ c < b.cols then _ else _) = _
        rw [if_pos ⟨hi, hc⟩]
      have hidx : i < (colFinal (b.colCells c)).length := by
        rw [colFinal_length, colCells_length]
        exact hi
      rw [hg, gravityColumn_spec]
      show some ((colFinal (b.colCells c)).getD i emptyCell).1 = _
      rw [List.getElem?_eq_getElem hidx, List.getD_eq_getElem _ emptyCell hidx]
      rfl
    · rw [if_neg hi,
        List.getElem?_eq_none_iff.mpr (by rw [colFinal_length, colCells_length]; omega)]
      rfl
  rw [hlist]
  unfold colFinal
  rw [List.map_append, List.map_replicate, List.filterMap_append, List.map_map,
    show (emptyCell.1 : Option TileColor) = none from rfl,
    filterMap_id_replicate_none, List.nil_append]
  show ((survivors (b.colCells c)).map (fun y => some y.1)).filterMap id = _
  rw [filterMap_id_map_some_fst]

theorem sum_map_add {α : Type} (l : List α) (f g : α → Nat) :
    (l.map (fun a => f a + g a)).sum = (l.map f).sum + (l.map g).sum := by
  induction l with
  | nil => rfl
  | cons x xs ih =>
    rw [List.map_cons, List.map_cons, List.map_cons, List.sum_cons, List.sum_cons,
      List.sum_cons, ih]
    omega

theorem countP_eq_sum_if {α : Type} (l : List α) (p : α → Bool) :
    l.countP p = (l.map (fun a => if p a then 1 else 0)).sum := by
  induction l with
  | nil => rfl
  | cons x xs ih =>
    rw [List.countP_cons, List.map_cons, List.sum_cons, ih]
    by_cases h : p x = true
    · simp [h]
      omega
    · simp [h]

theorem sum_countP_swap (n m : Nat) (P : Nat → Nat → Bool) :
    ((List.range n).map (fun r => (List.range m).countP (fun c => P r c))).sum
      = ((List.range m).map (fun c => (List.range n).countP (fun r => P r c))).sum := by
  induction n with
  | zero => simp
  | succ n ih =>
    have h2 : ((([n] : List Nat)).map (fun r => (List.range m).countP (fun c => P r c))).sum
        = (List.range m).countP (fun c => P n c) := by
      simp
    have h1 : ((List.range m).map fun c => (List.range (n + 1)).countP fun r => P r c)
        = (List.range m).map (fun c =>
            ((List.range n).countP fun r => P r c) + if P n c then 1 else 0) := by
      apply List.map_congr_left
      intro c _
      rw [List.range_succ, List.countP_append]
      congr 1
      simp [List.countP_cons]
    rw [h1, sum_map_add, List.range_succ, List.map_append, List.sum_append, h2, ih,
      countP_eq_sum_if]

theorem countP_isSome_eq {α : Type} (l : List (Option α)) :
    l.countP (fun x => x.isSome) = (l.filterMap id).length := by
  induction l with
  | nil => rfl
  | cons x xs ih =>
    rw [List.countP_cons, List.filterMap_cons]
    cases x with
    | none => simpa using ih
    | some v => simp [ih]

theorem countNonEmpty_cols (b : BoardModel) :
    b.countNonEmptyTiles
      = ((List.range b.cols).map (fun c => (colColors b c).length)).sum := by
  unfold BoardModel.countNonEmptyTiles
  rw [sum_countP_swap b.rows b.cols (fun r c => (b.grid r c).isSome)]
  apply congrArg
  apply List.map_congr_left
  intro c _
  unfold colColors
  rw [← countP_isSome_eq, List.countP_map]
  rfl

theorem moveAt_mem (cells : List Cell) (c r : Nat) (m : GravityMovement) :
    m ∈ moveAt cells c r ↔
      ∃ v, (cells.getD r emptyCell).1 = some v ∧ gravityDest cells r ≠ r ∧
        m = ⟨⟨(r : Int), (c : Int)⟩, ⟨(gravityDest cells r : Int), (c : Int)⟩, v⟩ := by
  unfold moveAt
  cases hx : (cells.getD r emptyCell).1 with
  | none =>
    constructor
    · intro h
      cases h
    · rintro ⟨v, hv, _, _⟩
      cases hv
  | some v =>
    dsimp only
    by_cases hd : (gravityDest cells r : Int) = (r : Int)
    · rw [if_pos hd]
      constructor
      · intro h
        cases h
      · rintro ⟨v', _, hne, _⟩
        exact absurd (by exact_mod_cast hd) hne
    · rw [if_neg hd]
      constructor
      · intro h
        rw [List.mem_singleton] at h
        subst h
        exact ⟨v, rfl, fun hh => hd (by rw [hh]), rfl⟩
      · rintro ⟨v', hv', hne, rfl⟩
        injection hv' with hv2
        subst hv2
        exact List.mem_singleton.mpr rfl

theorem movesBelow_mem (cells : List Cell) (c : Nat) (m : GravityMovement) :
    ∀ r, m ∈ movesBelow cells c r ↔ ∃ j, j < r ∧ m ∈ moveAt cells c j := by
  intro r
  induction r with
  | zero =>
    constructor
    · intro h
      cases h
    · rintro ⟨j, hj, _⟩
      omega
  | succ r ih =>
    show m ∈ moveAt cells c r ++ movesBelow cells c r ↔ _
    rw [List.mem_append, ih]
    constructor
    · rintro (h | ⟨j, hj, hm⟩)
      · exact ⟨r, Nat.lt_succ_self r, h⟩
      · exact ⟨j, by omega, hm⟩
    · rintro ⟨j, hj, hm⟩
      by_cases hjr : j = r
      · subst hjr
        exact Or.inl hm
      · exact Or.inr ⟨j, by omega, hm⟩

theorem applyGravity_moves_mem (b : BoardModel) (m : GravityMovement) :
    m ∈ b.applyGravity.2 ↔
      ∃ c, c < b.cols ∧ ∃ r, r < b.rows ∧ ∃ v,
        b.grid r c = some v ∧ gravityDest (b.colCells c) r ≠ r ∧
        m = ⟨⟨(r : Int), (c : Int)⟩,
          ⟨(gravityDest (b.colCells c) r : Int), (c : Int)⟩, v⟩ := by
  show m ∈ (List.range b.cols).flatMap _ ↔ _
  rw [List.mem_flatMap]
  constructor
  · rintro ⟨c, hc, hm⟩
    rw [List.mem_range] at hc
    rw [gravityColumn_spec] at hm
    have hm' : m ∈ movesBelow (b.colCells c) c (b.colCells c).length := hm
    rw [movesBelow_mem] at hm'
    rcases hm' with ⟨j, hj, hmj⟩
    rw [colCells_length] at hj
    rw [moveAt_mem] at hmj
    rcases hmj with ⟨v, hv, hne, rfl⟩
    rw [colCells_getD b c j hj] at hv
    exact ⟨c, hc, j, hj, v, hv, hne, rfl⟩
  · rintro ⟨c, hc, r, hr, v, hv, hne, rfl⟩
    refine ⟨c, List.mem_range.mpr hc, ?_⟩
    rw [gravityColumn_spec]
    show _ ∈ movesBelow (b.colCells c) c (b.colCells c).length
    rw [movesBelow_mem]
    refine ⟨r, by rw [colCells_length]; exact hr, ?_⟩
    rw [moveAt_mem]
    refine ⟨v, ?_, hne, rfl⟩
    rw [colCells_getD b c r hr]
    exact hv

theorem applyGravity_moves_shape (b : BoardModel) (m : GravityMovement)
    (hm : m ∈ b.applyGravity.2) :
    m.fromPos ≠ m.toPos ∧ m.fromPos.col = m.toPos.col := by
  rw [applyGravity_moves_mem] at hm
  rcases hm with ⟨c, hc, r, hr, v, hv, hne, rfl⟩
  constructor
  · intro hcon
    rw [tilePos_eq_iff] at hcon
    have h1 : (r : Int) = (gravityDest (b.colCells c) r : Int) := hcon.1
    exact hne (by exact_mod_cast h1.symm)
  · rfl

/-- C1: `applyGravity` preserves the number of non-empty cells, keeps the
top-to-bottom sequence of surviving colors of every column unchanged, and
its movement list contains exactly the relocations performed: a movement
for precisely each occupied cell whose compaction destination
(`gravityDest`) differs from its row, carrying that cell's color; in
particular stationary tiles are never reported
(`m.fromPos ≠ m.toPos` for every reported movement). -/
theorem claim_C1 (b : BoardModel) :
    b.applyGravity.1.countNonEmptyTiles = b.countNonEmptyTiles ∧
    (∀ c : Nat, c < b.cols → colColors b.applyGravity.1 c = colColors b c) ∧
    (∀ m : GravityMovement, m ∈ b.applyGravity.2 ↔
      ∃ c, c < b.cols ∧ ∃ r, r < b.rows ∧ ∃ v,
        b.grid r c = some v ∧ gravityDest (b.colCells c) r ≠ r ∧
        m = ⟨⟨(r : Int), (c : Int)⟩,
          ⟨(gravityDest (b.colCells c) r : Int), (c : Int)⟩, v⟩) ∧
    (∀ m ∈ b.applyGravity.2, m.fromPos ≠ m.toPos ∧ m.fromPos.col = m.toPos.col) := by
  refine ⟨?_, fun c hc => applyGravity_colColors b c hc, applyGravity_moves_mem b,
    applyGravity_moves_shape b⟩
  rw [countNonEmpty_cols b, countNonEmpty_cols b.applyGravity.1]
  show ((List.range b.cols).map
    (fun c => (colColors b.applyGravity.1 c).length)).sum = _
  apply congrArg
  apply List.map_congr_left
  intro c hcmem
  rw [List.mem_range] at hcmem
  rw [applyGravity_colColors b c hcmem]

/-- Witness for C1 on a 3×1 board with a hole: counts and column colors are
preserved and the single falling tile's movement is reported. -/
theorem claim_C1_witness :
    gravityDemoBoard.applyGravity.1.countNonEmptyTiles
        = gravityDemoBoard.countNonEmptyTiles ∧
    colColors gravityDemoBoard.applyGravity.1 0 = colColors gravityDemoBoard 0 ∧
    (⟨⟨0, 0⟩, ⟨1, 0⟩, TileColor.Red⟩ : GravityMovement) ∈ gravityDemoBoard.applyGravity.2 ∧
    (⟨⟨0, 0⟩, ⟨1, 0⟩, TileColor.Red⟩ : GravityMovement).fromPos ≠
      (⟨⟨0, 0⟩, ⟨1, 0⟩, TileColor.Red⟩ : GravityMovement).toPos := by
  have hmem : (⟨⟨0, 0⟩, ⟨1, 0⟩, TileColor.Red⟩ : GravityMovement)
      ∈ gravityDemoBoard.applyGravity.2 :=
    ((claim_C1 gravityDemoBoard).2.2.1 _).mpr
      ⟨0, by decide, 0, by decide, TileColor.Red, by decide, by decide, by decide⟩
  exact ⟨(claim_C1 gravityDemoBoard).1, (claim_C1 gravityDemoBoard).2.1 0 (by decide), hmem,
    ((claim_C1 gravityDemoBoard).2.2.2 _ hmem).1⟩


theorem toFinPos_inj (b : BoardModel) (p q : TilePos) (hp : b.inBounds p.row p.col)
    (hq : b.inBounds q.row q.col) (h : toFinPos b p hp = toFinPos b q hq) : p = q := by
  unfold toFinPos at h
  rw [Prod.ext_iff] at h
  have h1 := congrArg Fin.val h.1
  have h2 := congrArg Fin.val h.2
  simp only at h1 h2
  unfold BoardModel.inBounds at hp hq
  apply (tilePos_eq_iff p q).mpr
  constructor <;> omega

theorem toFinPos_congr (b : BoardModel) (p q : TilePos) (h : p = q)
    (hp : b.inBounds p.row p.col) (hq : b.inBounds q.row q.col) :
    toFinPos b p hp = toFinPos b q hq := by
  subst h
  rfl

theorem adjacent_cases (p q : TilePos) (h : adjacent p q) :
    q = ⟨p.row - 1, p.col⟩ ∨ q = ⟨p.row + 1, p.col⟩ ∨
    q = ⟨p.row, p.col - 1⟩ ∨ q = ⟨p.row, p.col + 1⟩ := by
  unfold adjacent at h
  by_cases hr : q.row = p.row
  · by_cases hc : q.col = p.col - 1
    · exact Or.inr (Or.inr (Or.inl ((tilePos_eq_iff q _).mpr
        ⟨by dsimp only; omega, by dsimp only; omega⟩)))
    · exact Or.inr (Or.inr (Or.inr ((tilePos_eq_iff q _).mpr
        ⟨by dsimp only; omega, by dsimp only; omega⟩)))
  · by_cases hc : q.row = p.row - 1
    · exact Or.inl ((tilePos_eq_iff q _).mpr
        ⟨by dsimp only; omega, by dsimp only; omega⟩)
    · exact Or.inr (Or.inl ((tilePos_eq_iff q _).mpr
        ⟨by dsimp only; omega, by dsimp only; omega⟩))

theorem adjacent_up (p : TilePos) : adjacent p ⟨p.row - 1, p.col⟩ := by
  unfold adjacent
  dsimp only
  omega

theorem adjacent_down (p : TilePos) : adjacent p ⟨p.row + 1, p.col⟩ := by
  unfold adjacent
  dsimp only
  omega

theorem adjacent_left (p : TilePos) : adjacent p ⟨p.row, p.col - 1⟩ := by
  unfold adjacent
  dsimp only
  omega

theorem adjacent_right (p : TilePos) : adjacent p ⟨p.row, p.col + 1⟩ := by
  unfold adjacent
  dsimp only
  omega

theorem reach_good (b : BoardModel) (sc : TileColor) (s p : TilePos)
    (hs : goodCell b sc s) (h : SameColorReach b sc s p) : goodCell b sc p := by
  induction h with
  | refl => exact hs
  | tail _ hstep _ => exact hstep.2.1

theorem findGroupAux_sound (b : BoardModel) (sc : TileColor) (s : TilePos) :
    ∀ stack visited group,
      (∀ p ∈ group, goodCell b sc p ∧ SameColorReach b sc s p) →
      (∀ q ∈ stack, q = s ∨ ∃ p, goodCell b sc p ∧ SameColorReach b sc s p ∧ adjacent p q) →
      group.Nodup →
      (∀ p ∈ group, ∃ h : b.inBounds p.row p.col, toFinPos b p h ∈ visited) →
      (b.findGroupAux sc stack visited group).Nodup ∧
      ∀ p ∈ b.findGroupAux sc stack visited group,
        goodCell b sc p ∧ SameColorReach b sc s p := by
  intro stack visited group
  induction stack, visited, group using BoardModel.findGroupAux.induct b sc with
  | case1 visited group =>
    intro h1 _ h3 _
    rw [BoardModel.findGroupAux]
    exact ⟨h3, h1⟩
  | case2 p rest visited group h hmem ih =>
    intro h1 h2 h3 h4
    rw [BoardModel.findGroupAux, dif_pos h, dif_pos hmem]
    exact ih h1 (fun q hq => h2 q (List.mem_cons_of_mem p hq)) h3 h4
  | case3 p rest visited group h hmem hcol ih =>
    intro h1 h2 h3 h4
    rw [BoardModel.findGroupAux, dif_pos h, dif_neg hmem, if_pos hcol]
    have hgoodp : goodCell b sc p := ⟨h, hcol⟩
    have hreachp : SameColorReach b sc s p := by
      rcases h2 p (List.mem_cons_self p rest) with rfl | ⟨p', hg', hr', hadj'⟩
      · exact Relation.ReflTransGen.refl
      · exact Relation.ReflTransGen.tail hr' ⟨hg', hgoodp, hadj'⟩
    have hpnot : p ∉ group := by
      intro hmem2
      rcases h4 p hmem2 with ⟨h', hv⟩
      exact hmem (by rwa [show toFinPos b p h' = toFinPos b p h from rfl] at hv)
    apply ih
    · intro x hx
      rcases List.mem_append.mp hx with hx | hx
      · exact h1 x hx
      · rw [List.mem_singleton.mp hx]
        exact ⟨hgoodp, hreachp⟩
    · intro q hq
      rcases hq with _ | ⟨_, hq⟩
      · exact Or.inr ⟨p, hgoodp, hreachp, adjacent_up p⟩
      rcases hq with _ | ⟨_, hq⟩
      · exact Or.inr ⟨p, hgoodp, hreachp, adjacent_down p⟩
      rcases hq with _ | ⟨_, hq⟩
      · exact Or.inr ⟨p, hgoodp, hreachp, adjacent_left p⟩
      rcases hq with _ | ⟨_, hq⟩
      · exact Or.inr ⟨p, hgoodp, hreachp, adjacent_right p⟩
      · exact h2 _ (List.mem_cons_of_mem p hq)
    · rw [List.nodup_append]
      exact ⟨h3, List.nodup_singleton p, by simpa using hpnot⟩
    · intro x hx
      rcases List.mem_append.mp hx with hx | hx
      · rcases h4 x hx with ⟨h', hv⟩
        exact ⟨h', Finset.mem_insert_of_mem hv⟩
      · rw [List.mem_singleton.mp hx]
        exact ⟨h, Finset.mem_insert_self _ _⟩
  | case4 p rest visited group h hmem hcol ih =>
    intro h1 h2 h3 h4
    rw [BoardModel.findGroupAux, dif_pos h, dif_neg hmem, if_neg hcol]
    apply ih h1 (fun q hq => h2 q (List.mem_cons_of_mem p hq)) h3
    intro x hx
    rcases h4 x hx with ⟨h', hv⟩
    exact ⟨h', Finset.mem_insert_of_mem hv⟩
  | case5 p rest visited group h ih =>
    intro h1 h2 h3 h4
    rw [BoardModel.findGroupAux, dif_neg h]
    exact ih h1 (fun q hq => h2 q (List.mem_cons_of_mem p hq)) h3 h4

theorem findGroupAux_complete (b : BoardModel) (sc : TileColor) (s : TilePos)
    (hs : goodCell b sc s) :
    ∀ stack visited group,
      (∀ p, ∀ hg : goodCell b sc p, toFinPos b p hg.1 ∈ visited → p ∈ group) →
      (∀ p ∈ group, ∀ q, adjacent p q → ∀ hg : goodCell b sc q,
        toFinPos b q hg.1 ∈ visited ∨ q ∈ stack) →
      (s ∈ group ∨ s ∈ stack) →
      ∀ p, goodCell b sc p → SameColorReach b sc s p →
        p ∈ b.findGroupAux sc stack visited group := by
  intro stack visited group
  induction stack, visited, group using BoardModel.findGroupAux.induct b sc with
  | case1 visited group =>
    intro hC1 hC2 hC3 p hp hreach
    rw [BoardModel.findGroupAux]
    have hsmem : s ∈ group := by
      rcases hC3 with hmem | hmem
      · exact hmem
      · cases hmem
    clear hp
    induction hreach with
    | refl => exact hsmem
    | tail _ hstep ih2 =>
      rcases hC2 _ ih2 _ hstep.2.2 hstep.2.1 with hv | hst
      · exact hC1 _ hstep.2.1 hv
      · cases hst
  | case2 p rest visited group h hmem ih =>
    intro hC1 hC2 hC3 x hx hreach
    rw [BoardModel.findGroupAux, dif_pos h, dif_pos hmem]
    apply ih _ _ _ x hx hreach
    · exact hC1
    · intro y hy q hadj hg
      rcases hC2 y hy q hadj hg with hv | hst
      · exact Or.inl hv
      · rcases List.mem_cons.mp hst with heq | hst
        · left
          rw [toFinPos_congr b q p heq hg.1 h]
          exact hmem
        · exact Or.inr hst
    · rcases hC3 with hmem2 | hmem2
      · exact Or.inl hmem2
      · rcases List.mem_cons.mp hmem2 with heq | hmem2
        · left
          apply hC1 s hs
          rw [toFinPos_congr b s p heq hs.1 h]
          exact hmem
        · exact Or.inr hmem2
  | case3 p rest visited group h hmem hcol ih =>
    intro hC1 hC2 hC3 x hx hreach
    rw [BoardModel.findGroupAux, dif_pos h, dif_neg hmem, if_pos hcol]
    apply ih _ _ _ x hx hreach
    · intro y hg hv
      rcases Finset.mem_insert.mp hv with hv | hv
      · have hy : y = p := toFinPos_inj b y p hg.1 h hv
        rw [hy]
        exact List.mem_append.mpr (Or.inr (List.mem_singleton.mpr rfl))
      · exact List.mem_append.mpr (Or.inl (hC1 y hg hv))
    · intro y hy q hadj hg
      rcases List.mem_append.mp hy with hy | hy
      · rcases hC2 y hy q hadj hg with hv | hst
        · exact Or.inl (Finset.mem_insert_of_mem hv)
        · rcases List.mem_cons.mp hst with heq | hst
          · left
            rw [toFinPos_congr b q p heq hg.1 h]
            exact Finset.mem_insert_self _ _
          · exact Or.inr (by simp [hst])
      · rw [List.mem_singleton.mp hy] at hadj
        rcases adjacent_cases p q hadj with rfl | rfl | rfl | rfl
        · exact Or.inr (by simp)
        · exact Or.inr (by simp)
        · exact Or.inr (by simp)
        · exact Or.inr (by simp)
    · rcases hC3 with hmem2 | hmem2
      · exact Or.inl (List.mem_append.mpr (Or.inl hmem2))
      · rcases List.mem_cons.mp hmem2 with heq | hmem2
        · refine Or.inl (List.mem_append.mpr (Or.inr ?_))
          rw [List.mem_singleton, heq]
        · exact Or.inr (by simp [hmem2])
  | case4 p rest visited group h hmem hcol ih =>
    intro hC1 hC2 hC3 x hx hreach
    rw [BoardModel.findGroupAux, dif_pos h, dif_neg hmem, if_neg hcol]
    apply ih _ _ _ x hx hreach
    · intro y hg hv
      rcases Finset.mem_insert.mp hv with hv | hv
      · have hy : y = p := toFinPos_inj b y p hg.1 h hv
        rw [hy] at hg
        exact absurd hg.2 hcol
      · exact hC1 y hg hv
    · intro y hy q hadj hg
      rcases hC2 y hy q hadj hg with hv | hst
      · exact Or.inl (Finset.mem_insert_of_mem hv)
      · rcases List.mem_cons.mp hst with heq | hst
        · exact absurd (heq ▸ hg.2) hcol
        · exact Or.inr hst
    · rcases hC3 with hmem2 | hmem2
      · exact Or.inl hmem2
      · rcases List.mem_cons.mp hmem2 with heq | hmem2
        · exact absurd (heq ▸ hs.2) hcol
        · exact Or.inr hmem2
  | case5 p rest visited group h ih =>
    intro hC1 hC2 hC3 x hx hreach
    rw [BoardModel.findGroupAux, dif_neg h]
    apply ih _ _ _ x hx hreach
    · exact hC1
    · intro y hy q hadj hg
      rcases hC2 y hy q hadj hg with hv | hst
      · exact Or.inl hv
      · rcases List.mem_cons.mp hst with heq | hst
        · exact absurd (heq ▸ hg.1) h
        · exact Or.inr hst
    · rcases hC3 with hmem2 | hmem2
      · exact Or.inl hmem2
      · rcases List.mem_cons.mp hmem2 with heq | hmem2
        · exact absurd (heq ▸ hs.1) h
        · exact Or.inr hmem2

theorem findGroup_eq_aux (b : BoardModel) (sc : TileColor) (startRow startCol : Int)
    (hin : b.inBounds startRow startCol)
    (hcol : b.grid startRow.toNat startCol.toNat = some sc) :
    b.findGroup startRow startCol =
      b.findGroupAux sc [⟨startRow, startCol⟩] ∅ [] := by
  unfold BoardModel.findGroup
  rw [if_neg (not_not_intro hin), hcol]

theorem findGroup_spec (b : BoardModel) (sc : TileColor) (startRow startCol : Int)
    (hin : b.inBounds startRow startCol)
    (hcol : b.grid startRow.toNat startCol.toNat = some sc) :
    (b.findGroup startRow startCol).Nodup ∧
    ∀ p, p ∈ b.findGroup startRow startCol ↔
      SameColorReach b sc ⟨startRow, startCol⟩ p := by
  have hs : goodCell b sc ⟨startRow, startCol⟩ := ⟨hin, hcol⟩
  rw [findGroup_eq_aux b sc startRow startCol hin hcol]
  have hsound := findGroupAux_sound b sc ⟨startRow, startCol⟩ [⟨startRow, startCol⟩] ∅ []
    (fun p hp => absurd hp (List.not_mem_nil p))
    (fun q hq => Or.inl (List.mem_singleton.mp hq))
    List.nodup_nil
    (fun p hp => absurd hp (List.not_mem_nil p))
  have hcomp := findGroupAux_complete b sc ⟨startRow, startCol⟩ hs [⟨startRow, startCol⟩] ∅ []
    (fun p hg hv => absurd hv (Finset.not_mem_empty _))
    (fun p hp => absurd hp (List.not_mem_nil p))
    (Or.inr (List.mem_singleton.mpr rfl))
  exact ⟨hsound.1, fun p => ⟨fun hp => (hsound.2 p hp).2,
    fun hr => hcomp p (reach_good b sc _ p hs hr) hr⟩⟩

/-- C2: `findGroup(startRow, startCol)` returns a duplicate-free list that is
empty exactly when the start is out of bounds or the start cell is empty;
otherwise it contains the start position, its members are exactly the cells
4-connected to the start through same-colored cells, and it is closed under
same-color 4-adjacency (maximal). -/
theorem claim_C2 (b : BoardModel) (startRow startCol : Int) :
    (b.findGroup startRow startCol = [] ↔
      ¬ b.inBounds startRow startCol ∨
      b.grid startRow.toNat startCol.toNat = none) ∧
    ∀ sc : TileColor, b.inBounds startRow startCol →
      b.grid startRow.toNat startCol.toNat = some sc →
      (b.findGroup startRow startCol).Nodup ∧
      (⟨startRow, startCol⟩ : TilePos) ∈ b.findGroup startRow startCol ∧
      (∀ p, p ∈ b.findGroup startRow startCol ↔
        SameColorReach b sc ⟨startRow, startCol⟩ p) ∧
      ∀ p ∈ b.findGroup startRow startCol, goodCell b sc p ∧
        ∀ q, adjacent p q → goodCell b sc q →
          q ∈ b.findGroup startRow startCol := by
  refine ⟨⟨?_, ?_⟩, ?_⟩
  · intro hemp
    by_cases hin : b.inBounds startRow startCol
    · right
      cases hg : b.grid startRow.toNat startCol.toNat with
      | none => rfl
      | some sc =>
        have hspec := findGroup_spec b sc startRow startCol hin hg
        have hmem : (⟨startRow, startCol⟩ : TilePos) ∈ b.findGroup startRow startCol :=
          (hspec.2 _).mpr Relation.ReflTransGen.refl
        rw [hemp] at hmem
        cases hmem
    · exact Or.inl hin
  · intro h
    unfold BoardModel.findGroup
    rcases h with h | h
    · rw [if_pos h]
    · by_cases hin : b.inBounds startRow startCol
      · rw [if_neg (not_not_intro hin), h]
      · rw [if_pos hin]
  · intro sc hin hcol
    have hspec := findGroup_spec b sc startRow startCol hin hcol
    refine ⟨hspec.1, (hspec.2 _).mpr Relation.ReflTransGen.refl, hspec.2, ?_⟩
    intro p hp
    have hreach := (hspec.2 p).mp hp
    have hgood : goodCell b sc p := reach_good b sc _ p ⟨hin, hcol⟩ hreach
    refine ⟨hgood, ?_⟩
    intro q hadj hgq
    exact (hspec.2 q).mpr (Relation.ReflTransGen.tail hreach ⟨hgood, hgq, hadj⟩)

theorem claim_C2_witness :
    sampleBoard.inBounds 0 0 ∧
    sampleBoard.grid 0 0 = some TileColor.Red ∧
    (⟨0, 0⟩ : TilePos) ∈ sampleBoard.findGroup 0 0 := by
  have hin : sampleBoard.inBounds 0 0 := by
    show (0 : Int) ≤ 0 ∧ (0 : Int) < ((2 : Nat) : Int) ∧ (0 : Int) ≤ 0 ∧ (0 : Int) < ((2 : Nat) : Int)
    omega
  have hcol : sampleBoard.grid (0 : Int).toNat (0 : Int).toNat = some TileColor.Red := rfl
  exact ⟨hin, hcol, ((claim_C2 sampleBoard 0 0).2 TileColor.Red hin hcol).2.1⟩

theorem removeGroupCell_allNone (b : BoardModel) (p : TilePos)
    (h : AllSpecialsNone b) : AllSpecialsNone (b.removeGroupCell p) := by
  unfold BoardModel.removeGroupCell
  split
  · intro r c
    show updFn b.specialGrid p.row.toNat p.col.toNat TileSpecial.None r c = TileSpecial.None
    unfold updFn
    split
    · rfl
    · exact h r c
  · exact h

theorem removeGroup_allNone (group : List TilePos) :
    ∀ b : BoardModel, AllSpecialsNone b → AllSpecialsNone (b.removeGroup group) := by
  induction group with
  | nil => intro b h; exact h
  | cons p rest ih =>
    intro b h
    exact ih (b.removeGroupCell p) (removeGroupCell_allNone b p h)

theorem survivors_special (cells : List Cell)
    (h : ∀ x ∈ cells, x.2 = TileSpecial.None) :
    ∀ y ∈ survivors cells, y.2 = TileSpecial.None := by
  intro y hy
  rcases List.mem_filterMap.mp hy with ⟨x, hx, hxy⟩
  cases hc : x.1 with
  | none => rw [hc] at hxy; cases hxy
  | some v =>
    rw [hc] at hxy
    injection hxy with hxy
    rw [← hxy]
    exact h x hx

theorem colFinal_mem_special (cells : List Cell)
    (h : ∀ x ∈ cells, x.2 = TileSpecial.None) :
    ∀ x ∈ colFinal cells, x.2 = TileSpecial.None := by
  intro x hx
  rcases List.mem_append.mp hx with hx | hx
  · rw [List.eq_of_mem_replicate hx]
    rfl
  · rcases List.mem_map.mp hx with ⟨y, hy, rfl⟩
    exact survivors_special cells h y hy

theorem colFinal_getD_special (cells : List Cell)
    (h : ∀ x ∈ cells, x.2 = TileSpecial.None) (i : Nat) :
    ((colFinal cells).getD i emptyCell).2 = TileSpecial.None := by
  by_cases hi : i < (colFinal cells).length
  · rw [List.getD_eq_getElem _ _ hi]
    exact colFinal_mem_special cells h _ (List.getElem_mem hi)
  · rw [List.getD_eq_default _ _ (by omega)]
    rfl

theorem applyGravity_allNone (b : BoardModel) (h : AllSpecialsNone b) :
    AllSpecialsNone b.applyGravity.1 := by
  intro r c
  show (if r < b.rows ∧ c < b.cols then
      ((gravityColumn c (b.colCells c)).cells.getD r emptyCell).2
    else b.specialGrid r c) = TileSpecial.None
  have hcol : ∀ x ∈ b.colCells c, x.2 = TileSpecial.None := by
    intro x hx
    rcases List.mem_map.mp hx with ⟨r2, _, rfl⟩
    exact h r2 c
  split
  · rw [show (gravityColumn c (b.colCells c)).cells = colFinal (b.colCells c) from
      congrArg ColState.cells (gravityColumn_spec c (b.colCells c))]
    exact colFinal_getD_special _ hcol r
  · exact h r c

theorem refill_allNone (b : BoardModel) (pick : Nat → Nat → TileColor)
    (h : AllSpecialsNone b) : AllSpecialsNone (b.refillEmptyCells pick).1 := by
  intro r c
  show (if r < b.rows ∧ c < b.cols ∧ b.grid r c = none then TileSpecial.None
    else b.specialGrid r c) = TileSpecial.None
  split
  · rfl
  · exact h r c

theorem swapTiles_allNone (b : BoardModel) (a p : TilePos)
    (h : AllSpecialsNone b) : AllSpecialsNone (b.swapTiles a p) := by
  unfold BoardModel.swapTiles
  split
  · intro r c
    show updFn (updFn b.specialGrid a.row.toNat a.col.toNat
        (b.specialGrid p.row.toNat p.col.toNat))
      p.row.toNat p.col.toNat (b.specialGrid a.row.toNat a.col.toNat) r c = TileSpecial.None
    unfold updFn
    split
    · exact h _ _
    · split
      · exact h _ _
      · exact h r c
  · exact h

theorem clearAllTiles_allNone (b : BoardModel) (h : AllSpecialsNone b) :
    AllSpecialsNone b.clearAllTiles.1 := by
  intro r c
  show (if r < b.rows ∧ c < b.cols then TileSpecial.None else b.specialGrid r c)
    = TileSpecial.None
  split
  · rfl
  · exact h r c

theorem createFromGroup_allNone (minGroupSize : Int) (b : BoardModel)
    (group : List TilePos) (center : TilePos) (res : MegaBombCreationResult)
    (b2 : BoardModel) (h : AllSpecialsNone b)
    (heq : MegaBombController.createFromGroup minGroupSize b group center =
      Except.ok (res, b2)) : AllSpecialsNone b2 := by
  unfold MegaBombController.createFromGroup at heq
  by_cases h1 : (group.length : Int) < minGroupSize
  · rw [if_pos h1] at heq
    injection heq with heq
    injection heq with h3 h4
    rw [← h4]
    exact h
  · rw [if_neg h1] at heq
    by_cases h2 : 0 ≤ center.row ∧ center.row < (b.rows : Int)
    · rw [if_pos h2] at heq
      injection heq with heq
      injection heq with h3 h4
      rw [← h4]
      intro r c
      show (BoardModel.removeGroup b
        (group.filter (fun p => decide (¬ (p.row = center.row ∧ p.col = center.col))))).specialGrid
          r c = TileSpecial.None
      exact removeGroup_allNone _ b h r c
    · rw [if_neg h2] at heq
      cases heq

theorem explode_allNone (b : BoardModel) (row col : Int)
    (res : Option MegaBombExplosionResult) (b2 : BoardModel)
    (h : AllSpecialsNone b)
    (heq : MegaBombController.explode b row col = Except.ok (res, b2)) :
    AllSpecialsNone b2 := by
  unfold MegaBombController.explode at heq
  cases hread : readCellE b row col with
  | error e =>
    rw [hread] at heq
    dsimp only at heq
    cases heq
  | ok v =>
    rw [hread] at heq
    dsimp only at heq
    by_cases h1 : v ≠ some TileColor.MegaBomb
    · rw [if_pos h1] at heq
      injection heq with heq
      injection heq with h3 h4
      rw [← h4]
      exact h
    · rw [if_neg h1] at heq
      by_cases h2 : b.occupiedCells.length = 0
      · rw [if_pos h2] at heq
        injection heq with heq
        injection heq with h3 h4
        rw [← h4]
        exact h
      · rw [if_neg h2] at heq
        injection heq with heq
        injection heq with h3 h4
        rw [← h4]
        exact removeGroup_allNone _ b h

theorem reachable_allNone (b : BoardModel) (hb : ReachableBoard b) :
    AllSpecialsNone b := by
  induction hb with
  | start b pick => intro r c; rfl
  | remove b group _ ih => exact removeGroup_allNone group b ih
  | gravity b _ ih => exact applyGravity_allNone b ih
  | refill b pick _ ih => exact refill_allNone b pick ih
  | swap b a p _ ih => exact swapTiles_allNone b a p ih
  | clearAll b _ ih => exact clearAllTiles_allNone b ih
  | megaCreate minGroupSize b group center res b2 _ heq ih =>
    exact createFromGroup_allNone minGroupSize b group center res b2 ih heq
  | megaExplode b row col res b2 _ heq ih =>
    exact explode_allNone b row col res b2 ih heq

/-- C10: in every board state reachable from `randomFill()` via the public
operations, every entry of the parallel `specialGrid` equals
`TileSpecial.None`, so `BoardModel.isMegaBomb` returns `false` for every
in-bounds cell — `createFromGroup` marks a mega bomb only in the color
grid. -/
theorem claim_C10 (b : BoardModel) (hb : ReachableBoard b) :
    (∀ r c, b.specialGrid r c = TileSpecial.None) ∧
    ∀ row col : Int, b.inBounds row col → b.isMegaBomb row col = false := by
  have h : AllSpecialsNone b := reachable_allNone b hb
  refine ⟨h, ?_⟩
  intro row col hin
  unfold BoardModel.isMegaBomb BoardModel.getSpecial
  rw [if_pos hin, h row.toNat col.toNat]
  rfl

theorem claim_C10_witness :
    ReachableBoard (sampleBoard.randomFill (fun _ _ => TileColor.Red)) ∧
    (sampleBoard.randomFill (fun _ _ => TileColor.Red)).isMegaBomb 0 0 = false := by
  have hb : ReachableBoard (sampleBoard.randomFill (fun _ _ => TileColor.Red)) :=
    ReachableBoard.start sampleBoard (fun _ _ => TileColor.Red)
  have hin : (sampleBoard.randomFill (fun _ _ => TileColor.Red)).inBounds 0 0 := by
    show (0 : Int) ≤ 0 ∧ (0 : Int) < ((2 : Nat) : Int) ∧
      (0 : Int) ≤ 0 ∧ (0 : Int) < ((2 : Nat) : Int)
    omega
  exact ⟨hb, (claim_C10 _ hb).2 0 0 hin⟩

end MatchBlast
